import Mathlib

/-!
# Excahauler control core: a shallow embedding and its checked properties

The definitions below transcribe the C++ sources of the mining-robot backend
(`kinematic_links.cpp`, `excahaul_collision.h`, `backend/main.cpp`,
`nanoboot_handoff.h`) into Lean functions.

Conventions of the embedding:

* a C `float`/`double` is an element of a linearly ordered field `F`
  (the rationals when a value has to be computed, the reals when
  transcendental functions are involved); rounding is not modelled, and
  NaN only where the code tests for it (`motor_scale`);
* the C math library (`sqrt`, `acos`, `atan2`) and the `RAD2DEG` factor are
  passed in as a record `cmath F`;
* `const char*` results are `Option String`, `NULL` being `none`;
* C `int` counters are unbounded naturals or integers, fixed-width bytes are
  reduced modulo `256` explicitly.
-/

namespace Aurora

/-! ## Vectors -/

/-- Two-component vector (`vec2` of the vector library). -/
structure vec2 (F : Type) where
  x : F
  y : F

/-- Three-component vector (`vec3` of the vector library). -/
structure vec3 (F : Type) where
  x : F
  y : F
  z : F

/-- The C math library functions used by the kinematics code, together with
the radians-to-degrees factor `RAD2DEG`. -/
structure cmath (F : Type) where
  sqrt : F → F
  acos : F → F
  atan2 : F → F → F
  cos : F → F
  sin : F → F
  RAD2DEG : F

section defs

variable {F : Type} [LinearOrderedField F]

/-- Component-wise difference `a - b` of two `vec3`. -/
def vec3.sub (a b : vec3 F) : vec3 F := ⟨a.x - b.x, a.y - b.y, a.z - b.z⟩

/-- Euclidean length of a `vec3`, `length(v)` in the source. -/
def vec3.length (M : cmath F) (v : vec3 F) : F :=
  M.sqrt (v.x * v.x + v.y * v.y + v.z * v.z)

/-! ## Joint state and power vector -/

/-- Joint angles in degrees, in the order of `robot_joint_state::array`:
fork, dump, boom, stick, tilt, spin (the order of the `joint_index` column of
the link table and of the aggregate initialisers in `backend/main.cpp`). -/
structure robot_joint_state (F : Type) where
  fork : F
  dump : F
  boom : F
  stick : F
  tilt : F
  spin : F

/-- The view `joint.array[i]` of the joint angles. -/
def robot_joint_state.array (j : robot_joint_state F) (i : Nat) : F :=
  match i with
  | 0 => j.fork
  | 1 => j.dump
  | 2 => j.boom
  | 3 => j.stick
  | 4 => j.tilt
  | _ => j.spin

/-- Payload of the attached tool: nothing, a grinder (mining head rate) or an
arm (five joint torques). -/
inductive attached_t (F : Type) where
  | attach_none : attached_t F
  | attach_grinder (tool : F) : attached_t F
  | attach_arm (j0 j1 j2 j3 j4 : F) : attached_t F

/-- Power commands, each nominally in `[-1, +1]`. -/
structure robot_power (F : Type) where
  left : F
  right : F
  fork : F
  dump : F
  boom : F
  stick : F
  tilt : F
  read_L : Nat
  attached : attached_t F

/-- Test `power.attached_grinder()`. -/
def robot_power.attached_grinder (p : robot_power F) : Bool :=
  match p.attached with
  | .attach_grinder _ => true
  | _ => false

/-- Test `power.attached_arm()`. -/
def robot_power.attached_arm (p : robot_power F) : Bool :=
  match p.attached with
  | .attach_arm _ _ _ _ _ => true
  | _ => false

/-- Field `power.attached.grinder.tool` (read only under `attached_grinder`). -/
def robot_power.grinder_tool (p : robot_power F) : F :=
  match p.attached with
  | .attach_grinder t => t
  | _ => 0

/-- Field `power.attached.arm.joint[i]` (read only under `attached_arm`). -/
def robot_power.arm_joint (p : robot_power F) (i : Nat) : F :=
  match p.attached with
  | .attach_arm j0 j1 j2 j3 j4 =>
    match i with
    | 0 => j0
    | 1 => j1
    | 2 => j2
    | 3 => j3
    | _ => j4
  | _ => 0

/-- Modelled from the spec: `power.stop()` of `robot_base.h` (not among the
sources), "all powers zero": every actuator power set to zero. -/
def robot_power.stop (p : robot_power F) : robot_power F :=
  { left := 0, right := 0, fork := 0, dump := 0, boom := 0, stick := 0, tilt := 0,
    read_L := p.read_L,
    attached := match p.attached with
      | .attach_none => .attach_none
      | .attach_grinder _ => .attach_grinder 0
      | .attach_arm _ _ _ _ _ => .attach_arm 0 0 0 0 0 }

/-! ## Collision constants and distance helpers (`excahaul_collision.h`) -/

/-- Safety gap between moving parts, metres. -/
def SAFE_DIST : F := 3 / 100

/-- Radius of the mining head, metres. -/
def MINING_HEAD_R : F := 9 / 100

/-- Upper hazard point of the scoop, scoop coordinates. -/
def SCOOP_HAZ_UPPER : vec3 F := ⟨0, 2 / 100, 275 / 1000⟩

/-- Middle hazard point of the scoop, scoop coordinates. -/
def SCOOP_HAZ_MID : vec3 F := ⟨0, -(15 / 1000), -(122 / 1000)⟩

/-- Lower hazard point of the scoop, scoop coordinates. -/
def SCOOP_HAZ_LOWER : vec3 F := ⟨0, 333 / 1000, -(9 / 100)⟩

/-- Base of the boom, boom coordinates. -/
def BOOM_HAZ_LOWER : vec3 F := ⟨0, 0, 0⟩

/-- Upper boom point, boom coordinates. -/
def BOOM_HAZ_UPPER : vec3 F := ⟨0, 0, 25 / 100⟩

/-- Squared distance of two points of the plane. -/
def dist_squared (v w : vec2 F) : F :=
  (v.x - w.x) * (v.x - w.x) + (v.y - w.y) * (v.y - w.y)

/-- Distance of two points of the plane. -/
def dist (M : cmath F) (v w : vec2 F) : F := M.sqrt (dist_squared v w)

/-- Distance between the segment from `v` to `w` and the point `p`. -/
def point_to_line_dist_2D (M : cmath F) (v w p : vec2 F) : F :=
  let len2 := dist_squared v w
  if len2 < 1 / 10000 then dist M p v
  else
    let t_res := ((p.x - v.x) * (w.x - v.x) + (p.y - v.y) * (w.y - v.y)) / len2
    let t_min := if t_res > 1 then 1 else t_res
    let t := if t_min < 0 then 0 else t_min
    let projection : vec2 F := ⟨v.x + (w.x - v.x) * t, v.y + (w.y - v.y) * t⟩
    dist M p projection

/-- The same distance on the `y`,`z` components of 3-D points. -/
def point_to_line_dist (M : cmath F) (v w p : vec3 F) : F :=
  point_to_line_dist_2D M ⟨v.y, v.z⟩ ⟨w.y, w.z⟩ ⟨p.y, p.z⟩

/-! ## Hazard checker (`joint_move_hazards`) -/

/-- Points the hazard checker obtains from the link coordinate frames of a
joint state (`robot_link_coords`, declared in `kinematics.h`): the mining
head midpoint and the two tool back points in corrected scoop coordinates,
and the tool origin and tool back point in boom coordinates. -/
structure hazard_points (F : Type) where
  tip : vec3 F
  tool_back_lower : vec3 F
  tool_back_upper : vec3 F
  tip_to_boom : vec3 F
  tool_back_to_boom : vec3 F

/-- One guarded `return "...";` statement. -/
def hazard_when (c : Prop) [Decidable c] (msg : String) : Option String :=
  if c then some msg else none

/-- A run of statements: the first `return` that fires wins. -/
def first_hazard : List (Option String) → Option String
  | [] => none
  | some m :: _ => some m
  | none :: rest => first_hazard rest

/-- A block `if (c) { ... }` around a run of guarded returns. -/
def hazard_block (c : Bool) (body : List (Option String)) : Option String :=
  if c then first_hazard body else none

/-- Detailed sanity check of a motion at a joint state: `none` if the power
commands keep the robot in a safe configuration, else a short description of
the hazard.  `coords` stands for the coordinate-frame computation of the
source (steps "Get frame-relative orientations" to the `local_from_world`
calls); everything after it is transcribed statement by statement. -/
def joint_move_hazards (M : cmath F) (coords : robot_joint_state F → hazard_points F)
    (joint : robot_joint_state F) (power : robot_power F) : Option String :=
  let small : F := 1 / 100
  let scoop_down : Bool := decide (joint.fork < -10) || decide (joint.dump < -70)
  let driving : Bool := decide (|power.left| > small) || decide (|power.right| > small)
  if scoop_down && driving then some "scoop dragging on ground" else
  let back_tilted : Bool := decide (joint.boom > 40) && decide (joint.stick > 20)
  let back_move : Bool := decide (power.boom < -small) || decide (power.stick > small)
  if back_tilted && back_move then some "hitting back ebox" else
  let pts := coords joint
  let tip := pts.tip
  let tool_back_lower := pts.tool_back_lower
  let tool_back_upper := pts.tool_back_upper
  let head_in_scoop : Bool :=
    decide (tip.y + MINING_HEAD_R + SAFE_DIST > (SCOOP_HAZ_UPPER : vec3 F).y) &&
    decide (tip.z - (MINING_HEAD_R + SAFE_DIST) < (SCOOP_HAZ_UPPER : vec3 F).z) &&
    decide (tip.y - (MINING_HEAD_R + SAFE_DIST) < (SCOOP_HAZ_LOWER : vec3 F).y) &&
    decide (tip.z + MINING_HEAD_R + SAFE_DIST > (SCOOP_HAZ_LOWER : vec3 F).z)
  let tool_back_in_scoop : Bool :=
    decide (tool_back_lower.y + SAFE_DIST > (SCOOP_HAZ_UPPER : vec3 F).y) &&
    decide (tool_back_lower.z - SAFE_DIST < (SCOOP_HAZ_UPPER : vec3 F).z) &&
    decide (tool_back_lower.y - SAFE_DIST < (SCOOP_HAZ_LOWER : vec3 F).y) &&
    decide (tool_back_lower.z + SAFE_DIST > (SCOOP_HAZ_LOWER : vec3 F).z)
  let in_scoop : Bool := head_in_scoop || tool_back_in_scoop
  let dist_to_scoop_bottom := point_to_line_dist M SCOOP_HAZ_MID SCOOP_HAZ_LOWER tip
  let head_near_bottom : Bool := decide (dist_to_scoop_bottom < MINING_HEAD_R + SAFE_DIST)
  let head_under_scoop : Bool :=
    decide (tip.z - MINING_HEAD_R < (SCOOP_HAZ_MID : vec3 F).z) ||
    decide (tip.z - MINING_HEAD_R < (SCOOP_HAZ_LOWER : vec3 F).z)
  let dist_to_scoop_back := point_to_line_dist M SCOOP_HAZ_MID SCOOP_HAZ_UPPER tip
  let head_near_back : Bool := decide (dist_to_scoop_back < MINING_HEAD_R + SAFE_DIST)
  let head_behind_scoop : Bool :=
    decide (tip.y < (SCOOP_HAZ_MID : vec3 F).y) &&
    decide (tip.z - MINING_HEAD_R < (SCOOP_HAZ_UPPER : vec3 F).z)
  let tool_upper_scoop_upper_dist :=
    point_to_line_dist M tool_back_upper tool_back_lower SCOOP_HAZ_UPPER
  let tool_lower_scoop_upper_dist := point_to_line_dist M tool_back_lower tip SCOOP_HAZ_UPPER
  let tool_upper_scoop_lower_dist :=
    point_to_line_dist M tool_back_upper tool_back_lower SCOOP_HAZ_LOWER
  let tool_lower_scoop_lower_dist := point_to_line_dist M tool_back_lower tip SCOOP_HAZ_LOWER
  let tool_back_near_scoop_upper : Bool :=
    decide (tool_upper_scoop_upper_dist < SAFE_DIST) ||
    decide (tool_lower_scoop_upper_dist < SAFE_DIST)
  let tool_back_near_scoop_lower : Bool :=
    decide (tool_upper_scoop_lower_dist < SAFE_DIST) ||
    decide (tool_lower_scoop_lower_dist < SAFE_DIST)
  let head_dist_to_boom := point_to_line_dist M BOOM_HAZ_LOWER BOOM_HAZ_UPPER pts.tip_to_boom
  let tool_dist_to_boom :=
    point_to_line_dist M BOOM_HAZ_LOWER BOOM_HAZ_UPPER pts.tool_back_to_boom
  let in_boom : Bool :=
    decide (head_dist_to_boom < MINING_HEAD_R + SAFE_DIST) ||
    decide (tool_dist_to_boom < SAFE_DIST)
  first_hazard [
    hazard_block in_scoop [
      hazard_when (power.attached_grinder = true ∧ |power.grinder_tool| > small)
        "can't spin inside scoop"],
    hazard_block (head_near_bottom && !head_under_scoop) [
      hazard_when (power.boom > small) "boom pushing tool into scoop",
      hazard_when (power.stick < -small) "stick pushing tool into scoop",
      hazard_when (power.tilt > small) "tilting tool into scoop",
      hazard_when (power.dump > small) "dump pushing scoop into tool",
      hazard_when (power.fork > small) "fork pushing scoop into tool"],
    hazard_block (head_near_bottom && head_under_scoop) [
      hazard_when (power.boom < -small) "boom pushing tool into scoop",
      hazard_when (power.stick < -small) "stick pushing tool into scoop",
      hazard_when (power.tilt < -small) "tilting tool into scoop",
      hazard_when (power.dump < -small) "dump pushing scoop into tool",
      hazard_when (power.fork < -small) "fork pushing scoop into tool"],
    hazard_block (head_near_back && !head_behind_scoop) [
      hazard_when (power.boom < -small) "boom pushing tool into scoop",
      hazard_when (power.stick < -small) "stick pushing tool into scoop",
      hazard_when (power.tilt < -small) "tilting tool into scoop",
      hazard_when (power.dump < -small) "dump pushing scoop into tool",
      hazard_when (|power.fork| > small) "fork pushing scoop into tool"],
    hazard_block (head_near_back && head_behind_scoop) [
      hazard_when (power.boom > small) "boom pushing tool into scoop",
      hazard_when (power.stick < -small) "stick pushing tool into scoop",
      hazard_when (|power.tilt| > small) "tilting tool into scoop (use stick/boom)",
      hazard_when (power.dump > small) "dump pushing scoop into tool",
      hazard_when (power.fork > small) "fork pushing scoop into tool"],
    hazard_block tool_back_near_scoop_upper [
      hazard_when (|power.boom| > small) "boom pushing tool into scoop (use stick!)",
      hazard_when (power.stick < -small) "stick pushing tool into scoop",
      hazard_when (power.tilt < -small) "tilting tool into scoop",
      hazard_when (|power.dump| > small) "dump pushing scoop into tool",
      hazard_when (power.fork > small) "fork pushing scoop into tool"],
    hazard_block tool_back_near_scoop_lower [
      hazard_when (power.boom > small) "boom pushing tool into scoop",
      hazard_when (power.stick < -small) "stick pushing tool into scoop",
      hazard_when (power.tilt < -small) "tilting tool into scoop",
      hazard_when (power.dump < -small) "dump pushing scoop into tool",
      hazard_when (power.fork > small) "fork pushing scoop into tool"],
    hazard_block in_boom [
      hazard_when (power.stick < -small) "stick pushing tool into boom",
      hazard_when (power.tilt < -small) "tilting tool into boom"]]

/-! ## Link table and joint sanity (`kinematic_links.cpp`) -/

/-- Index of a robot link (`robot_link_index`). -/
inductive robot_link_index where
  | link_pit | link_frame | link_fork | link_dump | link_boom | link_stick | link_tilt
  | link_spin | link_coupler | link_grinder | link_depthcam | link_drivecamflip
  | link_drivecam
  deriving DecidableEq, Repr

/-- Kind of a link. -/
inductive robot_link_type where
  | linktype_fixed | linktype_revolute
  deriving DecidableEq, Repr

/-- Rotation axis of a link. -/
inductive robot_axis where
  | axisX | axisY | axisZ | axisNONE
  deriving DecidableEq, Repr

/-- One row of the link table.  Rows that give no angle limits leave
`angle_min` and `angle_max` zero-initialised, as C++ aggregate
initialisation does. -/
structure robot_link_geometry (F : Type) where
  name : String
  index : robot_link_index
  type : robot_link_type
  parent : robot_link_index
  origin : vec3 F
  axis : robot_axis
  fixed_angle : F
  joint_index : Int
  angle_min : F
  angle_max : F

open robot_link_index robot_link_type robot_axis in
/-- The static link table `geom[link_count]`. -/
def link_geometry (L : robot_link_index) : robot_link_geometry F :=
  match L with
  | link_pit =>
    ⟨"pit", link_pit, linktype_fixed, link_pit, ⟨0, 0, 0⟩, axisNONE, 0, -1, 0, 0⟩
  | link_frame =>
    ⟨"frame", link_frame, linktype_revolute, link_pit, ⟨0, 0, 0⟩, axisZ, 0, -1, 0, 0⟩
  | link_fork =>
    ⟨"fork", link_fork, linktype_revolute, link_frame, ⟨0, 455 / 1000, 150 / 1000⟩,
      axisX, 0, 0, -(587 / 10), 10⟩
  | link_dump =>
    ⟨"dump", link_dump, linktype_revolute, link_fork, ⟨0, 250 / 1000, 20 / 1000⟩,
      axisX, 0, 1, -80, -10⟩
  | link_boom =>
    ⟨"boom", link_boom, linktype_revolute, link_frame, ⟨0, 570 / 1000, 215 / 1000⟩,
      axisX, 0, 2, -58, 52⟩
  | link_stick =>
    ⟨"stick", link_stick, linktype_revolute, link_boom, ⟨0, -(312 / 1000), 750 / 1000⟩,
      axisX, 0, 3, -32, 60⟩
  | link_tilt =>
    ⟨"tilt", link_tilt, linktype_revolute, link_stick, ⟨0, 735 / 1000, 12 / 1000⟩,
      axisX, 0, 4, -75, 52⟩
  | link_spin =>
    ⟨"spin", link_spin, linktype_revolute, link_tilt, ⟨0, 0, -(75 / 1000)⟩,
      axisY, 0, 5, -30, 30⟩
  | link_coupler =>
    ⟨"coupler", link_coupler, linktype_fixed, link_spin, ⟨0, 0, 35 / 1000⟩,
      axisNONE, 0, -1, 0, 0⟩
  | link_grinder =>
    ⟨"grinder", link_grinder, linktype_fixed, link_coupler, ⟨0, 475 / 1000, -(311 / 1000)⟩,
      axisNONE, 0, -1, 0, 0⟩
  | link_depthcam =>
    ⟨"depthcam", link_depthcam, linktype_revolute, link_stick, ⟨0, 490 / 1000, 500 / 1000⟩,
      axisX, -180 + 57 + 1, -1, 0, 0⟩
  | link_drivecamflip =>
    ⟨"drivecamflip", link_drivecamflip, linktype_revolute, link_frame,
      ⟨0, -(575 / 1000), 270 / 1000 + 215 / 1000⟩, axisZ, 180, -1, 0, 0⟩
  | link_drivecam =>
    ⟨"drivecam", link_drivecam, linktype_revolute, link_drivecamflip, ⟨0, 0, 0⟩,
      axisX, -90, -1, 0, 0⟩

open robot_link_index in
/-- List of all robot links that include joints with angles. -/
def links_with_revolute_joints : List robot_link_index :=
  [link_fork, link_dump, link_boom, link_stick, link_tilt, link_spin]

/-- Body of the loop of `joint_state_sane` for one link: `false` when the
loop returns `false` at this link. -/
def joint_link_sane (joint : robot_joint_state F) (L : robot_link_index) : Bool :=
  let G : robot_link_geometry F := link_geometry L
  if G.joint_index ≥ 0 then
    let angle := joint.array G.joint_index.toNat
    if angle < G.angle_min ∨ angle > G.angle_max then false else true
  else true

/-- Coarse sanity check of a set of joint angles (limits on angles). -/
def joint_state_sane (joint : robot_joint_state F) : Bool :=
  links_with_revolute_joints.all (joint_link_sane joint)

/-! ## Inverse kinematics (`excahauler_IK`) -/

/-- Angle in degrees of a direction vector in the YZ plane: the Y axis has
angle 0, the Z axis +90. -/
def frame_degrees (M : cmath F) (v : vec3 F) : F :=
  let rad := M.atan2 v.z v.y
  M.RAD2DEG * rad

/-- Data members of the solver: the link rows it refers to, the lengths of
the arm links and the angles of the arm link origins. -/
structure excahauler_IK (F : Type) where
  frameG : robot_link_geometry F
  boomG : robot_link_geometry F
  stickG : robot_link_geometry F
  tiltG : robot_link_geometry F
  boom_len : F
  stick_len : F
  boom_start : F
  stick_start : F

/-- The constructor `excahauler_IK()`. -/
def excahauler_IK.init (M : cmath F) : excahauler_IK F :=
  let stickG : robot_link_geometry F := link_geometry robot_link_index.link_stick
  let tiltG : robot_link_geometry F := link_geometry robot_link_index.link_tilt
  { frameG := link_geometry robot_link_index.link_frame,
    boomG := link_geometry robot_link_index.link_boom,
    stickG := stickG,
    tiltG := tiltG,
    boom_len := stickG.origin.length M,
    stick_len := tiltG.origin.length M,
    boom_start := frame_degrees M stickG.origin,
    stick_start := frame_degrees M tiltG.origin }

/-- Given the wanted origin of the tilt link and the wanted tool pitch,
update the boom, stick and tilt angles.  The result is the return value
(1 if reachable, -1 if not) and the joint state as the call leaves it. -/
def excahauler_IK.solve_tilt (M : cmath F) (ik : excahauler_IK F)
    (joint : robot_joint_state F) (tilt_loc : vec3 F) (tool_deg : F) :
    Int × robot_joint_state F :=
  let tilt_rel := tilt_loc.sub ik.boomG.origin
  let tilt_len := tilt_rel.length M
  let tilt_deg := frame_degrees M tilt_rel
  let a := ik.boom_len
  let b := tilt_len
  let c := ik.stick_len
  let cos_tb := (a * a + b * b - c * c) / (2 * a * b)
  if cos_tb > 1 ∨ cos_tb < -1 then (-1, joint)
  else
    let tb_deg := M.RAD2DEG * M.acos cos_tb
    let joint := { joint with boom := tilt_deg + tb_deg - ik.boom_start }
    let cos_sb := (a * a + c * c - b * b) / (2 * a * c)
    if cos_sb > 1 ∨ cos_sb < -1 then (-1, joint)
    else
      let sb_deg := M.RAD2DEG * M.acos cos_sb
      let joint := { joint with stick := sb_deg - ik.stick_start + ik.boom_start - 180 }
      let joint := { joint with tilt := tool_deg - joint.stick - joint.boom }
      let joint := if joint.tilt < -180 then { joint with tilt := joint.tilt + 360 } else joint
      (1, joint)

/-! ## Forward kinematics (link coordinate frames) -/

/-- Component-wise sum of two `vec3`. -/
def vec3.add (a b : vec3 F) : vec3 F := ⟨a.x + b.x, a.y + b.y, a.z + b.z⟩

/-- A `vec3` scaled by a number. -/
def vec3.scale (a : vec3 F) (k : F) : vec3 F := ⟨a.x * k, a.y * k, a.z * k⟩

/-- A coordinate frame: an origin and three axes, in the coordinates of an
enclosing frame (`robot_coord3D`, without its confidence value). -/
structure robot_coord3D (F : Type) where
  origin : vec3 F
  X : vec3 F
  Y : vec3 F
  Z : vec3 F

/-- Modelled from the spec: `world_from_local` of `robot_coord3D`
(`kinematics.h` is not among the sources): coordinates in the enclosing frame
of a point given in this frame. -/
def robot_coord3D.world_from_local (c : robot_coord3D F) (p : vec3 F) : vec3 F :=
  c.origin.add (((c.X.scale p.x).add (c.Y.scale p.y)).add (c.Z.scale p.z))

/-- Modelled from the spec: the rotation part of `world_from_local`:
coordinates in the enclosing frame of a direction given in this frame. -/
def robot_coord3D.world_from_local_dir (c : robot_coord3D F) (d : vec3 F) : vec3 F :=
  ((c.X.scale d.x).add (c.Y.scale d.y)).add (c.Z.scale d.z)

/-- The frame that coincides with its enclosing frame. -/
def robot_coord3D.identity : robot_coord3D F :=
  ⟨⟨0, 0, 0⟩, ⟨1, 0, 0⟩, ⟨0, 1, 0⟩, ⟨0, 0, 1⟩⟩

/-- Modelled from the spec: the local transform of a link before its
translation, a rotation about the link's declared axis by an angle in
degrees (`kinematics.h` is not among the sources).  A positive angle about X
turns the Y axis up toward Z, the convention `frame_degrees` documents; the
other axes turn the same right-handed way. -/
def axis_rotation (M : cmath F) (axis : robot_axis) (deg : F) : robot_coord3D F :=
  let rad := deg / M.RAD2DEG
  let c := M.cos rad
  let s := M.sin rad
  match axis with
  | .axisX => ⟨⟨0, 0, 0⟩, ⟨1, 0, 0⟩, ⟨0, c, s⟩, ⟨0, -s, c⟩⟩
  | .axisY => ⟨⟨0, 0, 0⟩, ⟨c, 0, -s⟩, ⟨0, 1, 0⟩, ⟨s, 0, c⟩⟩
  | .axisZ => ⟨⟨0, 0, 0⟩, ⟨c, s, 0⟩, ⟨-s, c, 0⟩, ⟨0, 0, 1⟩⟩
  | .axisNONE => robot_coord3D.identity

/-- Modelled from the spec: the frame of a link in its parent's coordinates
(`kinematics.h` is not among the sources): rotation about the link's axis by
its joint angle (if it has a joint) plus its fixed angle, followed by
translation by the link's offset from its parent. -/
def link_local_coords (M : cmath F) (joint : robot_joint_state F) (L : robot_link_index) :
    robot_coord3D F :=
  let G : robot_link_geometry F := link_geometry L
  let angle := (if G.joint_index ≥ 0 then joint.array G.joint_index.toNat else 0) + G.fixed_angle
  { axis_rotation M G.axis angle with origin := G.origin }

/-- Modelled from the spec: the product of two transforms (`kinematics.h` is
not among the sources): a child frame given in a parent's coordinates,
expressed in the frame enclosing the parent. -/
def robot_coord3D.compose (parent child : robot_coord3D F) : robot_coord3D F :=
  ⟨parent.world_from_local child.origin, parent.world_from_local_dir child.X,
    parent.world_from_local_dir child.Y, parent.world_from_local_dir child.Z⟩

/-- Modelled from the spec: the frame of a link in robot-frame coordinates
(`robot_link_coords` of `kinematics.h`, not among the sources): the product of
the local transforms along the chain of parents, from the `frame` link (or a
root that is its own parent) down to the link.  The first argument bounds the
length of the chain. -/
def link_coords (M : cmath F) (joint : robot_joint_state F) :
    Nat → robot_link_index → robot_coord3D F
  | 0, _ => robot_coord3D.identity
  | n + 1, L =>
    if L = robot_link_index.link_frame ∨ (link_geometry L : robot_link_geometry F).parent = L
    then robot_coord3D.identity
    else (link_coords M joint n (link_geometry L : robot_link_geometry F).parent).compose
      (link_local_coords M joint L)

/-- Number of links in the table. -/
def link_count : Nat := 13

/-- Origin of the tilt link in robot-frame coordinates, for a joint state. -/
def tilt_origin (M : cmath F) (joint : robot_joint_state F) : vec3 F :=
  (link_coords M joint link_count robot_link_index.link_tilt).origin

/-- Tool pitch for a joint state: the angle in the YZ plane of the Y axis of
the tilt link, in degrees. -/
def tool_pitch (M : cmath F) (joint : robot_joint_state F) : F :=
  frame_degrees M (link_coords M joint link_count robot_link_index.link_tilt).Y

/-! ## Motor scaling and command write (`backend/main.cpp`) -/

/-- C conversion of a floating value to an integer: truncation toward zero. -/
def c_trunc [FloorRing F] (x : F) : Int := if 0 ≤ x then ⌊x⌋ else ⌈x⌉

/-- Storing an integer into an `int8_t` (two's complement wrap). -/
def to_int8 (z : Int) : Int := (z + 128) % 256 - 128

/-- Convert -1.0 to +1.0 float power to discrete -100 to +100 motor percent.
The argument is `none` for a NaN. -/
def motor_scale [FloorRing F] (power : Option F) : Int :=
  match power with
  | none => 0
  | some p =>
    let sanity_limit : F := 4
    if p < -sanity_limit ∨ p > sanity_limit then 0
    else
      let p1 := if p > 1 then 1 else p
      let p2 := if p1 < -1 then -1 else p1
      let send_limit : F := 100
      to_int8 (c_trunc (send_limit * p2))

/-- Convert an unsigned char difference into a signed difference. -/
def fix_wrap256 (diff : Nat) : Int :=
  if diff > 128 then (diff : Int) - 256 else (diff : Int)

/-- The expression `fix_wrap256(cur - old)` of `update` on two 8-bit encoder
samples: the `int` difference is converted to `unsigned char` at the call. -/
def encoder_delta (old cur : Nat) : Int :=
  fix_wrap256 (((cur : Int) - (old : Int)) % 256).toNat

/-- Shared autonomy information (`nanoslot_autonomy`). -/
structure nanoslot_autonomy where
  mode : Nat
  deriving DecidableEq, Repr

/-- A per-slot command struct: the leading `autonomy` field followed by the
slot-specific fields. -/
structure nanoslot_command (P : Type) where
  autonomy : nanoslot_autonomy
  payload : P

/-- Fields `torque[1]`, `target[1]` of `nanoslot_command_0x70`. -/
structure payload_0x70 where
  torque_0 : Int
  target_0 : Int
  deriving DecidableEq, Repr

/-- Field `motor[4]` of the commands of slots A0, D0 and F0. -/
structure payload_motors where
  motor_0 : Int
  motor_1 : Int
  motor_2 : Int
  motor_3 : Int
  deriving DecidableEq, Repr

/-- Field `read_L` of the commands of slots A1 and F1. -/
structure payload_read_L where
  read_L : Nat
  deriving DecidableEq, Repr

/-- Field `mine` of `nanoslot_command_0xC0`. -/
structure payload_mine where
  mine : Int
  deriving DecidableEq, Repr

/-- Field `LED` of `nanoslot_command_0xEE`. -/
structure payload_LED where
  LED : Int
  deriving DecidableEq, Repr

/-- The part of `nanoslot_exchange` the backend touches in `update`: the
heartbeat, the shared autonomy mode, every slot's `command`, and the sensor
and state bits `update` reads. -/
structure nanoslot_exchange where
  backend_heartbeat : Nat
  autonomy : nanoslot_autonomy
  slot_70_command : nanoslot_command payload_0x70
  slot_71_command : nanoslot_command payload_0x70
  slot_72_command : nanoslot_command payload_0x70
  slot_73_command : nanoslot_command payload_0x70
  slot_A0_command : nanoslot_command payload_motors
  slot_A1_command : nanoslot_command payload_read_L
  slot_C0_command : nanoslot_command payload_mine
  slot_D0_command : nanoslot_command payload_motors
  slot_F0_command : nanoslot_command payload_motors
  slot_F1_command : nanoslot_command payload_read_L
  slot_EE_command : nanoslot_command payload_LED
  slot_A0_sensor_stop : Nat

/-- Modelled from the spec: the autonomy states of `robot_states.cpp`, in the
order the state list of the specification gives them. -/
inductive robot_state_t where
  | state_STOP | state_drive | state_driveraw | state_backend_driver | state_autonomy
  | state_scan | state_mine_start | state_mine | state_mine_stall | state_mine_finish
  | state_weigh | state_haul_start | state_haul_out | state_haul_dump | state_haul_back
  | state_haul_finish | state_stow | state_stowed | state_daily_start
  deriving DecidableEq, Repr

/-- Numeric value `(int)state`. -/
def robot_state_t.toNat (s : robot_state_t) : Nat := s.toCtorIdx

/-- The fields of `robot_base` used by the command path of `update`. -/
structure robot_base (F : Type) where
  state : robot_state_t
  joint : robot_joint_state F
  power : robot_power F

/-- Write the commands of a robot to the exchange. -/
def arduino_command_write [FloorRing F] (robot : robot_base F) (nano : nanoslot_exchange) :
    nanoslot_exchange :=
  let nano := { nano with autonomy := ⟨robot.state.toNat % 256⟩ }
  let nano :=
    if robot.power.attached_arm then
      { nano with
        slot_70_command := { nano.slot_70_command with
          payload := { nano.slot_70_command.payload with
            torque_0 := motor_scale (some (robot.power.arm_joint 0)) } },
        slot_71_command := { nano.slot_71_command with
          payload := { nano.slot_71_command.payload with
            torque_0 := motor_scale (some (robot.power.arm_joint 1)) } },
        slot_72_command := { nano.slot_72_command with
          payload := { nano.slot_72_command.payload with
            torque_0 := motor_scale (some (robot.power.arm_joint 2)) } },
        slot_73_command := { nano.slot_73_command with
          payload := { nano.slot_73_command.payload with
            torque_0 := motor_scale (some (robot.power.arm_joint 3)) } } }
    else nano
  let minePower : F := if robot.power.attached_grinder then robot.power.grinder_tool else 0
  let L := motor_scale (some robot.power.left)
  let R := motor_scale (some robot.power.right)
  { nano with
    slot_C0_command := { nano.slot_C0_command with payload := ⟨motor_scale (some minePower)⟩ },
    slot_A1_command := { nano.slot_A1_command with payload := ⟨robot.power.read_L % 256⟩ },
    slot_F1_command := { nano.slot_F1_command with payload := ⟨robot.power.read_L % 256⟩ },
    slot_A0_command := { nano.slot_A0_command with
      payload := ⟨0,
        motor_scale (some (if robot.power.attached_arm then robot.power.arm_joint 4 else 0)),
        motor_scale (some robot.power.tilt),
        motor_scale (some robot.power.stick)⟩ },
    slot_F0_command := { nano.slot_F0_command with
      payload := ⟨to_int8 (-motor_scale (some robot.power.dump)),
        to_int8 (-motor_scale (some robot.power.fork)),
        0,
        motor_scale (some robot.power.boom)⟩ },
    slot_D0_command := { nano.slot_D0_command with
      payload := ⟨to_int8 (-L), to_int8 (-R), to_int8 (-L), to_int8 (-R)⟩ },
    slot_EE_command := { nano.slot_EE_command with
      payload := ⟨to_int8 (c_trunc robot.power.right)⟩ },
    backend_heartbeat := (nano.backend_heartbeat + 1) % 256 }

/-- The command path of one `robot_manager_t::update` tick, from the hazard
check to `arduino_command_write`.  `robot` is the robot after the state
dispatch at the top of the tick, `nano_read` is the exchange snapshot the tick
reads (`nano`), `nano_write` the exchange the commands are written to.  The
result is the log line of the hazard check (if any), the robot handed to
`arduino_command_write` and the exchange after the write.  The statements in
between that touch neither `robot.state` nor `robot.power` (sensor read,
distance accrual, localisation) are left out. -/
def update_command_path [FloorRing F] (M : cmath F)
    (coords : robot_joint_state F → hazard_points F)
    (robot : robot_base F) (nano_read nano_write : nanoslot_exchange) :
    Option String × robot_base F × nanoslot_exchange :=
  let driveraw : Bool := decide (robot.state = robot_state_t.state_driveraw)
  let hazards := joint_move_hazards M coords robot.joint robot.power
  let log : Option String :=
    match hazards with
    | some h => if !driveraw then some (" -- HAZARD: " ++ h ++ " --") else none
    | none => none
  let robot :=
    if nano_read.slot_A0_sensor_stop ≠ 0 ∧ robot.state ≠ robot_state_t.state_STOP then
      { robot with state := robot_state_t.state_STOP, power := robot.power.stop }
    else robot
  (log, robot, arduino_command_write robot nano_write)

end defs

/-! ## Peripheral driver (`nanoboot_handoff.h`, `slot_D0/main.cpp`) -/

/-- Command byte of a serial packet. -/
inductive A_command where
  | NANOSLOT_A_ID | NANOSLOT_A_SENSOR | NANOSLOT_A_DEBUG | NANOSLOT_A_ERROR
  | other (code : Nat)
  deriving DecidableEq, Repr

/-- What one call of `pkt.read_packet` leaves in `p` once it stops returning
-1: the validity flag, the command byte, whether an ID packet passes
`check_ID`, and the sensor struct carried by a sensor packet. -/
structure A_packet (S : Type) where
  valid : Bool
  command : A_command
  id_ok : Bool
  sensor : S

/-- Counters and flags of `nanoslot_comms`. -/
structure nanoslot_comms where
  verbose : Nat
  packet_count : Nat
  fail_count : Nat
  weird_count : Nat
  is_connected : Bool
  got_sensor : Bool
  need_command : Bool
  deriving DecidableEq, Repr

/-- Field values of a freshly constructed `nanoslot_comms`. -/
def nanoslot_comms.init : nanoslot_comms :=
  { verbose := 0, packet_count := 0, fail_count := 0, weird_count := 0,
    is_connected := true, got_sensor := false, need_command := false }

/-- Receive serial data from the Arduino: the effect of `read_packet` on the
counters and flags, and its return value, for the packet `p` read. -/
def read_packet {S : Type} (c : nanoslot_comms) (p : A_packet S) : nanoslot_comms × Bool :=
  let c := { c with got_sensor := false, need_command := false }
  if p.valid then
    ({ c with packet_count := c.packet_count + 1, fail_count := 0 }, true)
  else
    let c := { c with fail_count := c.fail_count + 1 }
    let bad : Bool := decide (c.fail_count ≥ 100)
    let bad : Bool := if c.packet_count ≥ 10 ∧ c.fail_count ≥ 10 then true else bad
    if bad then ({ c with is_connected := false }, false) else (c, false)

/-- The slot of the exchange a driver owns (`NANOSLOT_MY_EX`) together with
the two shared fields it reads. -/
structure lunatic_exchange (P S : Type) where
  backend_heartbeat : Nat
  autonomy : nanoslot_autonomy
  my_ex_command : nanoslot_command P
  my_ex_sensor : S
  my_ex_state_connected : Nat
  my_ex_debug_packet_count : Nat

/-- State of a `nanoslot_lunatic` driver object. -/
structure nanoslot_lunatic (P S : Type) extends nanoslot_comms where
  last_backend : Nat
  backend_paused : Nat
  my_sensor : S
  my_command : nanoslot_command P
  my_state_connected : Nat

/-- Default serial data packet handling.  `none` is the process ending in
`exit(1)` (firmware error, or an ID packet that fails `check_ID`). -/
def handle_standard_packet {P S : Type} (d : nanoslot_lunatic P S) (p : A_packet S) :
    Option (nanoslot_lunatic P S) :=
  match p.command with
  | .NANOSLOT_A_ID => if p.id_ok then some { d with need_command := true } else none
  | .NANOSLOT_A_SENSOR =>
    some { d with my_sensor := p.sensor, got_sensor := true, need_command := true }
  | .NANOSLOT_A_DEBUG => some d
  | .NANOSLOT_A_ERROR => none
  | .other _ => some { d with weird_count := d.weird_count + 1 }

/-- If there was a sensor update, post it to the data exchange; returns true
if command data has to be sent to the Arduino.  `nano_write` is the exchange
content at `write_begin`, `nano_read` the snapshot returned by `read`; the
second component of the result is the exchange content after the write
region (unchanged when nothing is written). -/
def lunatic_post_packet {P S : Type} (d : nanoslot_lunatic P S)
    (nano_write nano_read : lunatic_exchange P S) :
    nanoslot_lunatic P S × lunatic_exchange P S × Bool :=
  let written :=
    if d.got_sensor then
      { nano_write with
        my_ex_sensor := d.my_sensor,
        my_ex_state_connected := d.my_state_connected,
        my_ex_debug_packet_count := (nano_write.my_ex_debug_packet_count + 1) % 256 }
    else nano_write
  if d.need_command then
    let nano := nano_read
    let exchange_alive : Bool := decide (d.last_backend ≠ nano.backend_heartbeat)
    let d := { d with last_backend := nano.backend_heartbeat }
    let d :=
      if exchange_alive then { d with backend_paused := 0 }
      else { d with backend_paused := d.backend_paused + 1 }
    let d := { d with my_command := nano.my_ex_command }
    let d := { d with my_command := { d.my_command with autonomy := nano.autonomy } }
    let d :=
      if d.backend_paused > 10 then
        { d with my_command := { d.my_command with autonomy := { mode := 0 } } }
      else d
    (d, written, true)
  else (d, written, false)

/-- One pass through the body of the `while (comm.is_connected)` loop of a
slot program; the last component is the command sent to the Arduino, if any.
`none` is the process ending in `exit(1)`. -/
def main_iteration {P S : Type} (comm : nanoslot_lunatic P S) (p : A_packet S)
    (nano_write nano_read : lunatic_exchange P S) :
    Option (nanoslot_lunatic P S × lunatic_exchange P S × Option (nanoslot_command P)) :=
  let r := read_packet comm.tonanoslot_comms p
  let comm := { comm with tonanoslot_comms := r.1 }
  if r.2 then
    match handle_standard_packet comm p with
    | none => none
    | some comm =>
      let q := lunatic_post_packet comm nano_write nano_read
      if q.2.2 then some (q.1, q.2.1, some q.1.my_command)
      else some (q.1, q.2.1, none)
  else some (comm, nano_write, none)

/-- The `while (comm.is_connected)` loop of a slot program run on a finite
sequence of packets, each with the exchange snapshot read on that pass: the
driver state when the loop ends or the packets run out, and the commands sent
(`none` when the process ended in `exit(1)`). -/
def main_loop {P S : Type} (comm : nanoslot_lunatic P S)
    (nano : lunatic_exchange P S) :
    List (A_packet S × lunatic_exchange P S) →
      Option (nanoslot_lunatic P S × List (nanoslot_command P))
  | [] => some (comm, [])
  | (p, nano_read) :: rest =>
    if comm.is_connected then
      match main_iteration comm p nano nano_read with
      | none => none
      | some (comm1, nano1, sent) =>
        match main_loop comm1 nano1 rest with
        | none => none
        | some (comm2, sents) => some (comm2, sent.toList ++ sents)
    else some (comm, [])

section mining_defs

variable {F : Type} [LinearOrderedField F]

/-- Split single progress into out and up components: the result is the pair
`(out, up)` the call leaves in its two reference arguments.  `length`
determines how far up the cut goes. -/
def split_progress (progress length : F) : F × F :=
  let upstart : F := 0
  let uplen : F := length
  let iend : F := 15 / 100
  let oend : F := 3 / 100
  let lead : F := 5 / 100
  if progress < iend then
    ((iend - progress) / iend * lead, upstart)
  else if progress > 1 - oend then
    ((progress - (1 - oend)) / oend * lead, upstart + uplen)
  else
    (0, upstart + uplen * (progress - iend) / (1 - iend - oend))

/-- The static variables of `filter_minerate`: the array `lastspins[3]` and
the write position `index`. -/
structure minerate_filter (F : Type) where
  lastspins_0 : F
  lastspins_1 : F
  lastspins_2 : F
  index : Nat

/-- The static variables of `filter_minerate` before its first call. -/
def minerate_filter.init : minerate_filter F := ⟨0, 0, 0, 0⟩

/-- Rolling filtered mining rates: one call, giving the static variables
after the call and the value returned. -/
def filter_minerate (st : minerate_filter F) (next_rate : F) : minerate_filter F × F :=
  let st : minerate_filter F :=
    match st.index with
    | 0 => { st with lastspins_0 := next_rate }
    | 1 => { st with lastspins_1 := next_rate }
    | _ => { st with lastspins_2 := next_rate }
  let index := st.index + 1
  let index := if index ≥ 3 then 0 else index
  let st := { st with index := index }
  let peak : F := 0
  let peak := if st.lastspins_0 > peak then st.lastspins_0 else peak
  let peak := if st.lastspins_1 > peak then st.lastspins_1 else peak
  let peak := if st.lastspins_2 > peak then st.lastspins_2 else peak
  (st, peak)

/-- The static variables of `filter_minerate` after a sequence of calls, one
per sample, starting from a given state. -/
def filter_minerate_calls (st : minerate_filter F) (samples : List F) : minerate_filter F :=
  samples.foldl (fun s x => (filter_minerate s x).1) st

/-- The lines of `arduino_sensor_read` that publish the mining rate: the
filter state after the call, `robot.sensor.minerate` and
`robot.sensor.Mstall`. -/
def sensor_read_minerate (st : minerate_filter F) (spin : F) : minerate_filter F × F × Bool :=
  let r := filter_minerate st spin
  (r.1, r.2, decide (0 = r.2))

end mining_defs

/-! ## Mining planner (`mine_planner`, `backend/main.cpp`) -/

section planner_defs

variable {F : Type} [LinearOrderedField F]

/-- What `mine_planner` takes from headers that are not among the sources:
the constants `mine_pit_angle` and `mine_floor_height` of `aurora/mining.h`,
the function `vec3_from_angle` of the vector library, and
`robot_link_coords::parent_from_child` of `kinematics.h`. -/
structure planner_externals (F : Type) where
  mine_pit_angle : F
  mine_floor_height : F
  vec3_from_angle : F → vec3 F
  parent_from_child : robot_link_index → robot_link_index → robot_coord3D F → robot_coord3D F

/-- Data members of `mine_planner`: the tip of the scoop in frame coordinates
and the inverse-kinematics solver. -/
structure mine_planner (F : Type) where
  scoop_tip : vec3 F
  ik : excahauler_IK F

/-- Starting configuration during mining. -/
def mine_joint_base : robot_joint_state F := ⟨-17, -30, 10, 0, -30, 0⟩

/-- Configuration the arm is raised to when a cut is done. -/
def mine_joint_finish : robot_joint_state F := ⟨-17, -30, 40, 7, -45, 0⟩

/-- Configuration for weighing the scoop. -/
def weigh_joint_scoop : robot_joint_state F := ⟨0, -20, 0, 0, 0, 0⟩

/-- Configuration the scoop returns to after weighing. -/
def weigh_joint_finish : robot_joint_state F := ⟨6, -15, 0, 0, 0, 0⟩

/-- Configuration for dumping the scoop. -/
def dump1_joint_scoop : robot_joint_state F := ⟨-10, -80, 0, 0, 0, 0⟩

/-- Distance away from scoop tip to start mining. -/
def mine_start_distance : F := 25 / 100

/-- The unit vector along a vector, `v.dir()`. -/
def vec3.dir (M : cmath F) (v : vec3 F) : vec3 F :=
  ⟨v.x / v.length M, v.y / v.length M, v.z / v.length M⟩

/-- The constructor of `mine_planner`: the scoop tip is the point
(0, 0.308, 0.168) of the dump link at the mining base posture. -/
def mine_planner.init (M : cmath F) : mine_planner F :=
  { scoop_tip := (link_coords M mine_joint_base link_count
      robot_link_index.link_dump).world_from_local ⟨0, 308 / 1000, 168 / 1000⟩,
    ik := excahauler_IK.init M }

/-- Direction of the cut for a mining angle in degrees. -/
def vec_from_mineangle (X : planner_externals F) (angle_deg : F) : vec3 F :=
  let r := X.vec3_from_angle angle_deg
  ⟨r.z, r.x, r.y⟩

/-- Compute the mining target (in frame coords) for this amount of mining
progress: the return value and the target. -/
def mine_planner.lookup_mine_target (X : planner_externals F) (mp : mine_planner F)
    (frame_pitch progress depth : F) : Int × vec3 F :=
  let up := vec_from_mineangle X (X.mine_pit_angle - frame_pitch)
  let inward : vec3 F := ⟨0, 1, 0⟩
  let start := mp.scoop_tip.add ⟨0, mine_start_distance, X.mine_floor_height⟩
  (1, (start.add (up.scale progress)).add (inward.scale depth))

/-- Given a frame-coordinates point for the tip of the rock grinder, set the
joints to put the arm at that point: the return value and the joint state the
call leaves in `mine_joint`. -/
def mine_planner.target_plan (M : cmath F) (X : planner_externals F) (mp : mine_planner F)
    (mine_target : vec3 F) (mine_joint : robot_joint_state F) :
    Int × robot_joint_state F :=
  let head_center : vec3 F := ⟨0, -(2 / 10), 12 / 10⟩
  let head_look := (mine_target.sub head_center).dir M
  let head_coords : robot_coord3D F :=
    ⟨⟨0, 0, 0⟩, ⟨1, 0, 0⟩, head_look, ⟨0, -head_look.z, head_look.y⟩⟩
  let tool_coords := X.parent_from_child robot_link_index.link_tilt
    robot_link_index.link_grinder head_coords
  let tilt_target := mine_target.sub (head_coords.world_from_local tool_coords.origin)
  let tilt_deg := frame_degrees M head_coords.Y
  let r := mp.ik.solve_tilt M mine_joint tilt_target tilt_deg
  if r.1 ≤ 0 then (r.1, r.2)
  else if joint_state_sane r.2 = false then (-99, r.2)
  else (1, r.2)

/-- Plan the joint state for a mining pass: a positive value if the joint
state seems reachable and safe, negative on error, and the joint state the
call leaves in `mine_joint`. -/
def mine_planner.mine_plan (M : cmath F) (X : planner_externals F) (mp : mine_planner F)
    (frame_pitch progress depth : F) (mine_joint : robot_joint_state F) :
    Int × robot_joint_state F :=
  let t := mp.lookup_mine_target X frame_pitch progress depth
  if t.1 ≤ 0 then (-1, mine_joint)
  else mp.target_plan M X t.2 mine_joint

end planner_defs

/-! ## Autonomy state machine (`robot_manager_t`, `backend/main.cpp`) -/

section autonomy_defs

variable {F : Type} [LinearOrderedField F]

/-- The members of `robot.sensor` the autonomy code reads. -/
structure robot_sensors_arduino (F : Type) where
  minerate : F
  Mstall : Bool
  load_TL : F
  load_TR : F
  load_SL : F
  load_SR : F
  frame_pitch : F
  charge_D : F

/-- The tuneable parameters `robot.tuneable`. -/
structure robot_tuneables (F : Type) where
  tool : F
  cut : F
  aggro : F
  drive : F

/-- The accumulated totals `robot.accum`. -/
structure robot_accum (F : Type) where
  scoop : F
  scoop_total : F
  drive : F
  drive_total : F
  op_total : F

/-- The fused pose `locator.merged`. -/
structure robot_localization (F : Type) where
  x : F
  y : F
  angle : F
  percent : F

/-- What the state machine takes from outside the sources at hand: the
constant `mine_power_limit` of `aurora/mining.h`, the planner member `mp`
seen through its method `mine_plan` (frame pitch, progress, depth and
`mine_joint` in; return value and `mine_joint` out), and the method
`forward()` of the pose (`robot_base.h`). -/
structure backend_externals (F : Type) where
  mine_power_limit : F
  mine_plan : F → F → F → robot_joint_state F → Int × robot_joint_state F
  forward : robot_localization F → vec2 F

/-- The members of `robot_manager_t`, and the globals of `backend/main.cpp`,
that `autonomous_state` reads or writes.  `sensor`, `tuneable`, `accum` and
`joint_plan` are the members of `robot` of those names; `mine_progress`,
`last_drive_L`, `last_drive_R`, `robot_IMUs_OK` and `nodrive` are globals. -/
structure robot_manager_t (F : Type) where
  robot : robot_base F
  sensor : robot_sensors_arduino F
  tuneable : robot_tuneables F
  accum : robot_accum F
  joint_plan : robot_joint_state F
  substep : Nat
  stall_backoff : F
  mine_progress : F
  cur_time : F
  state_start_time : F
  mine_start_time : F
  autonomy_start_time : F
  last_state : robot_state_t
  mining_head_lowered : Bool
  haul_out_phase : Bool
  last_drive_L : F
  last_drive_R : F
  merged : robot_localization F
  robot_IMUs_OK : Bool
  nodrive : Bool

/-- Replace `robot.power`. -/
def robot_manager_t.set_power (m : robot_manager_t F) (p : robot_power F) :
    robot_manager_t F :=
  { m with robot := { m.robot with power := p } }

/-- The assignment `power.attached.grinder.tool = v`.  With a grinder attached
it sets the tool power; otherwise it lands in union storage that no modelled
code reads, and the power vector is left as it is. -/
def robot_power.set_grinder_tool (p : robot_power F) (v : F) : robot_power F :=
  match p.attached with
  | .attach_grinder _ => { p with attached := .attach_grinder v }
  | _ => p

/-- Enter a new state: the state change with its bookkeeping.  The flush of
the planned path and the timing log are outputs to other processes and are
left out. -/
def enter_state (m : robot_manager_t F) (new_state : robot_state_t) : robot_manager_t F :=
  let m := if new_state = robot_state_t.state_autonomy
    then { m with autonomy_start_time := m.cur_time } else m
  { m with
    last_state := m.robot.state,
    robot := { m.robot with state := new_state },
    state_start_time := m.cur_time,
    substep := 0,
    last_drive_L := 0,
    last_drive_R := 0 }

/-- Limit a value to lie in the range from `-range` to `+range`. -/
def limit (v range : F) : F :=
  if v > range then range
  else if v < -range then -range
  else v

/-- Power to move one joint toward a target, and whether it is there. -/
def move_single_joint (target cur scale cap : F) : F × Bool :=
  let err := target - cur
  let P : F := 2 / 10
  let command := P * scale * err
  let command := limit command cap
  (command, decide (|err| < 15 / 10))

/-- Set power values to move the front scoop (fork and dump) to a joint
state; true when it is basically there. -/
def move_scoop (m : robot_manager_t F) (j : robot_joint_state F) : robot_manager_t F × Bool :=
  let m := { m with joint_plan := { m.joint_plan with fork := j.fork, dump := j.dump } }
  let rf := move_single_joint j.fork m.robot.joint.fork 1 1
  let rd := move_single_joint j.dump m.robot.joint.dump 1 1
  (m.set_power { m.robot.power with fork := rf.1, dump := rd.1 }, rf.2 && rd.2)

/-- Set power values to move the robot arm (boom, stick, tilt) to a joint
state; true when it is basically there. -/
def move_arm (m : robot_manager_t F) (j : robot_joint_state F) (speed : F) :
    robot_manager_t F × Bool :=
  let m := { m with joint_plan := j }
  let rb := move_single_joint j.boom m.robot.joint.boom (-speed) 1
  let rs := move_single_joint j.stick m.robot.joint.stick speed 1
  let rt := move_single_joint j.tilt m.robot.joint.tilt speed 1
  (m.set_power { m.robot.power with boom := rb.1, stick := rs.1, tilt := rt.1 },
    rb.2 && rs.2 && rt.2)

/-- Set the mining head and dump linear to the driving posture; true if it
is safe to drive.  The body is commented out in the source ("kept for
compatibility"). -/
def drive_posture (_m : robot_manager_t F) : Bool := true

/-- Autonomous driving rate. -/
def drive_speed (m : robot_manager_t F) : F := m.tuneable.drive

/-- Autonomous drive power from forward and turn values. -/
def set_drive_powers (m : robot_manager_t F) (forward turn : F) : robot_manager_t F :=
  let max_autonomous_drive : F := 1
  let drive_power := drive_speed m
  let t := limit turn drive_power
  let d := limit forward drive_power
  let L := d - t
  let R := d + t
  m.set_power { m.robot.power with
    left := limit L max_autonomous_drive, right := limit R max_autonomous_drive }

/-- Blend the drive powers with the previous ones. -/
def smooth_robot_drive (m : robot_manager_t F) (amount : F) : robot_manager_t F :=
  let left := amount * m.last_drive_L + (1 - amount) * m.robot.power.left
  let right := amount * m.last_drive_R + (1 - amount) * m.robot.power.right
  { m.set_power { m.robot.power with left := left, right := right } with
    last_drive_L := left, last_drive_R := right }

/-- Drive in a straight line toward a target position; true when basically
there. -/
def autonomous_drive_dumb (M : cmath F) (X : backend_externals F) (m : robot_manager_t F)
    (target : vec2 F) (speed : F) : robot_manager_t F × Bool :=
  if drive_posture m = false then (m, false) else
  let cur2D : vec2 F := ⟨m.merged.x, m.merged.y⟩
  let target2D := target
  let drive_power := speed * drive_speed m
  let orient := X.forward m.merged
  let diff : vec2 F := ⟨cur2D.x - target2D.x, cur2D.y - target2D.y⟩
  let len := M.sqrt (diff.x * diff.x + diff.y * diff.y)
  let should : vec2 F := ⟨diff.x / len, diff.y / len⟩
  let turn := orient.x * should.y - orient.y * should.x
  let turn := if orient.x * should.x + orient.y * should.y > 0 then -turn else turn
  let drive := orient.x * should.x + orient.y * should.y
  let t := limit turn drive_power
  let d := limit drive drive_power
  let L := -d + t
  let R := -d - t
  (m.set_power { m.robot.power with
      left := limit L drive_power, right := limit R drive_power },
    decide (len < 20))

/-- Call when something has gone wrong with autonomous operations: drop to
manual driving (the log lines are left out). -/
def autonomous_fail (m : robot_manager_t F) : robot_manager_t F :=
  enter_state m robot_state_t.state_drive

/-- Check the drive battery; fail if it is below the threshold. -/
def drive_battery_check (m : robot_manager_t F) (threshold_percent : F) : robot_manager_t F :=
  if m.sensor.charge_D < threshold_percent then autonomous_fail m else m

/-- One step of the autonomous hauling trip; true when the trip is done. -/
def haul_drive_done (M : cmath F) (X : backend_externals F) (m : robot_manager_t F) :
    robot_manager_t F × Bool :=
  let haul_distance : F := 500
  let haul_Y_start : F := 15
  let haul_Y_dist : F := 8
  let haul_X_target : F := 5
  let target_out : vec2 F := ⟨haul_X_target, haul_Y_start + haul_Y_dist + 5⟩
  let target_back : vec2 F := ⟨haul_X_target, haul_Y_start - 5⟩
  let m := drive_battery_check m 0
  if m.accum.drive ≥ haul_distance then (m, true)
  else
    let progress := (m.merged.y - haul_Y_start) / haul_Y_dist
    let progress := if progress < 0 then 0 else progress
    let progress := if progress > 1 then 1 else progress
    let progress := if m.haul_out_phase = false then 1 - progress else progress
    let m := if progress ≥ 1 then { m with haul_out_phase := !m.haul_out_phase } else m
    let m :=
      if m.haul_out_phase = true then (autonomous_drive_dumb M X m target_out 1).1
      else (autonomous_drive_dumb M X m target_back 1).1
    (smooth_robot_drive m (9 / 10), false)

/-- The branch `state_mine` of `autonomous_state`. -/
def autonomous_state_mine (X : backend_externals F) (m : robot_manager_t F) :
    robot_manager_t F :=
  -- Tool is running
  let m := m.set_power
    (m.robot.power.set_grinder_tool (min m.tuneable.tool X.mine_power_limit))
  let aggro : F := 1 / 2
  let advance : Bool := true
  let backoff : Bool := false
  -- Stall check using mining rate
  let backoff : Bool :=
    if m.sensor.minerate < 50 then (if m.sensor.minerate = 0 then true else backoff)
    else backoff
  let advance : Bool := if m.sensor.minerate < 50 then false else advance
  -- Side wedge detection using tool load cell
  let advance : Bool := if m.sensor.load_TR < -10 then false else advance
  let backoff : Bool := if m.sensor.load_TR < -10 then true else backoff
  -- Apply bools to adjust cut parameters
  let cap_backoff : F := 1 / 10
  let m :=
    if backoff = true then
      let m := { m with stall_backoff := m.stall_backoff + 2 / 100 }
      let max_backoff : F := 3 / 10
      if m.stall_backoff > max_backoff then
        enter_state { m with stall_backoff := max_backoff * (4 / 10) } robot_state_t.state_STOP
      else m
    else if advance = true then
      let m := { m with stall_backoff := min cap_backoff m.stall_backoff }
      let m := { m with stall_backoff := m.stall_backoff * (96 / 100) - 5 / 1000 * aggro }
      if m.stall_backoff < 0 then { m with stall_backoff := 0 } else m
    else m
  let advance : Bool := if m.stall_backoff > 0 then false else advance
  -- Path planning into the cut face
  let mine_joint : robot_joint_state F := mine_joint_base
  let ou := split_progress m.mine_progress m.tuneable.aggro
  let out := ou.1
  let up := ou.2
  let mine_cut_depth := 0 + 1 / 100 * m.tuneable.cut - min cap_backoff m.stall_backoff - out
  let plan := X.mine_plan m.sensor.frame_pitch up mine_cut_depth mine_joint
  let m := if plan.1 < 0 then enter_state m robot_state_t.state_STOP else m
  let mine_joint := plan.2
  let r := move_arm m mine_joint 1
  let m := r.1
  if r.2 = true then
    let m := if advance = true
      then { m with mine_progress := m.mine_progress + 4 / 1000 * aggro } else m
    if m.mine_progress ≥ 1 then
      let m := { m with mine_progress := 0 }
      let m := m.set_power (m.robot.power.set_grinder_tool 0)
      enter_state m robot_state_t.state_mine_finish
    else m
  else m

/-- The branch `state_weigh` of `autonomous_state`; `time_in_state` is the
value computed at the top of `autonomous_state`. -/
def autonomous_state_weigh (m : robot_manager_t F) (time_in_state : F) : robot_manager_t F :=
  match m.substep with
  | 0 =>
    if m.robot_IMUs_OK = false then enter_state m robot_state_t.state_drive
    else
      let m := { m with state_start_time := m.cur_time }
      let r := move_scoop m weigh_joint_scoop
      if r.2 = true then { r.1 with substep := r.1.substep + 1 } else r.1
  | 1 =>
    if time_in_state < 15 / 10 then m.set_power { m.robot.power with read_L := 0 }
    else { m with substep := m.substep + 1 }
  | 2 =>
    if time_in_state < 3 then m.set_power { m.robot.power with read_L := 1 }
    else
      let m := { m with substep := m.substep + 1 }
      let total : F := -(m.sensor.load_SL + m.sensor.load_SR)
      let m := m.set_power { m.robot.power with read_L := 0 }
      { m with accum := { m.accum with scoop := total } }
  | 3 =>
    let r := move_scoop m weigh_joint_finish
    if r.2 = true then enter_state r.1 robot_state_t.state_STOP else r.1
  | _ => m

/-- Advance the autonomous state machine by one call. -/
def autonomous_state (M : cmath F) (X : backend_externals F) (m : robot_manager_t F) :
    robot_manager_t F :=
  let m := m.set_power m.robot.power.stop
  let time_in_state := m.cur_time - m.state_start_time
  let m :=
    match m.robot.state with
    | .state_autonomy => enter_state m robot_state_t.state_scan
    | .state_daily_start =>
      { m with accum := ⟨0, 0, 0, 0, 0⟩ }
    | .state_scan =>
      if time_in_state < 2 then m
      else enter_state { m with mine_start_time := m.cur_time } robot_state_t.state_mine_start
    | .state_mine_start =>
      let mine_joint : robot_joint_state F := mine_joint_base
      let m := { m with mine_progress := 0, stall_backoff := 0 }
      let r := move_arm m mine_joint 1
      if r.2 = true then enter_state r.1 robot_state_t.state_mine else r.1
    | .state_mine => autonomous_state_mine X m
    | .state_mine_stall =>
      let m := if time_in_state < 1 then enter_state m robot_state_t.state_mine
        else enter_state m robot_state_t.state_STOP
      if m.sensor.Mstall = true ∧ time_in_state < 1 then
        m.set_power { m.robot.power with boom := -1 }
      else enter_state m robot_state_t.state_mine
    | .state_mine_finish =>
      let r := move_arm m mine_joint_finish 1
      if r.2 = true then enter_state r.1 robot_state_t.state_STOP else r.1
    | .state_weigh => autonomous_state_weigh m time_in_state
    | .state_haul_start =>
      let m := { m with accum := { m.accum with
        drive_total := m.accum.drive_total + m.accum.drive } }
      let m := { m with accum := { m.accum with drive := 0 } }
      enter_state m robot_state_t.state_haul_out
    | .state_haul_out =>
      let r := haul_drive_done M X m
      if r.2 = true then enter_state r.1 robot_state_t.state_drive else r.1
    | .state_haul_dump =>
      let m := { m with accum := { m.accum with
        drive_total := m.accum.drive_total + m.accum.drive } }
      let m := { m with accum := { m.accum with drive := 0 } }
      let r := move_scoop m dump1_joint_scoop
      if r.2 = true then
        let m := r.1
        let m := { m with accum := { m.accum with
          scoop_total := m.accum.scoop_total + m.accum.scoop } }
        let m := { m with accum := { m.accum with scoop := 0 } }
        let m := { m with accum := { m.accum with
          drive_total := m.accum.drive_total + m.accum.drive } }
        let m := { m with accum := { m.accum with drive := 0 } }
        enter_state m robot_state_t.state_STOP
      else r.1
    | .state_haul_back =>
      let r := haul_drive_done M X m
      if r.2 = true then enter_state r.1 robot_state_t.state_drive else r.1
    | .state_haul_finish =>
      let m := { m with accum := { m.accum with
        drive_total := m.accum.drive_total + m.accum.drive } }
      let m := { m with accum := { m.accum with drive := 0 } }
      enter_state m robot_state_t.state_drive
    | .state_stow =>
      let _posture : Bool := if m.mining_head_lowered = true then drive_posture m else true
      let m := if time_in_state < 20 then m.set_power { m.robot.power with dump := -1 } else m
      enter_state m robot_state_t.state_stowed
    | .state_stowed => m
    | _ => enter_state m robot_state_t.state_drive
  if m.nodrive = true then set_drive_powers m 0 0 else m

/-- What one backend tick takes in before its state dispatch: the clock, the
sensor values and joint angles of the last sensor read, and the power the
backend keyboard interface asks for. -/
structure tick_input (F : Type) where
  cur_time : F
  sensor : robot_sensors_arduino F
  joint : robot_joint_state F
  ui_power : robot_power F

/-- The state dispatch of `robot_manager_t::update` ("Perform action based on
state"), on a manager that holds the inputs of the tick. -/
def update_dispatch (M : cmath F) (X : backend_externals F) (m : robot_manager_t F)
    (ui_power : robot_power F) : robot_manager_t F :=
  if m.robot.state = robot_state_t.state_STOP then
    { m.set_power m.robot.power.stop with state_start_time := m.cur_time }
  else if m.robot.state = robot_state_t.state_drive
      ∨ m.robot.state = robot_state_t.state_driveraw then
    { m with state_start_time := m.cur_time }
  else if m.robot.state = robot_state_t.state_backend_driver then
    m.set_power ui_power
  else if m.robot.state.toNat ≥ robot_state_t.state_autonomy.toNat then
    autonomous_state M X m
  else m

/-- One backend tick as far as the state machine goes: take in the clock and
the sensor values, then dispatch on the state. -/
def backend_tick (M : cmath F) (X : backend_externals F) (m : robot_manager_t F)
    (inp : tick_input F) : robot_manager_t F :=
  let m := { m with cur_time := inp.cur_time }
  let m := { m with sensor := inp.sensor }
  let m := { m with robot := { m.robot with joint := inp.joint } }
  update_dispatch M X m inp.ui_power

/-- A run of backend ticks, one per input. -/
def backend_ticks (M : cmath F) (X : backend_externals F) (m : robot_manager_t F)
    (inputs : List (tick_input F)) : robot_manager_t F :=
  inputs.foldl (backend_tick M X) m

end autonomy_defs

/-! ## Concrete inputs -/

/-- A math library on the rationals, for evaluating the definitions at
concrete inputs: `sqrt` is exact on squares of rationals; the trigonometric
functions are constant, and no evaluation below reaches them. -/
def cmath_rat : cmath ℚ :=
  ⟨fun x => Rat.sqrt x, fun _ => 0, fun _ _ => 0, fun _ => 1, fun _ => 0, 57⟩

/-- The math library on the reals: square root, arc cosine, two-argument arc
tangent (the argument of the point `(y, z)` of the plane), cosine, sine, and
`RAD2DEG = 180 / pi`. -/
noncomputable def cmath_real : cmath ℝ :=
  ⟨Real.sqrt, Real.arccos, fun z y => Complex.arg ⟨y, z⟩, Real.cos, Real.sin, 180 / Real.pi⟩

/-- The target straight ahead of the boom pivot at full extension: boom
length plus stick length in front of it, at its height. -/
noncomputable def full_extension_target : vec3 ℝ :=
  ⟨0, 570 / 1000 + ((excahauler_IK.init cmath_real).boom_len
      + (excahauler_IK.init cmath_real).stick_len), 215 / 1000⟩

/-- Hazard points at the origin, whatever the joint state. -/
def coords_origin : robot_joint_state ℚ → hazard_points ℚ :=
  fun _ => ⟨⟨0, 0, 0⟩, ⟨0, 0, 0⟩, ⟨0, 0, 0⟩, ⟨0, 0, 0⟩, ⟨0, 0, 0⟩⟩

/-- The hazard-veto scenario: manual drive state, fork at -30, dump at -80
degrees, both tracks commanded at 0.5. -/
def dragging_robot : robot_base ℚ :=
  { state := robot_state_t.state_drive,
    joint := ⟨-30, -80, 0, 0, 0, 0⟩,
    power := ⟨1 / 2, 1 / 2, 0, 0, 0, 0, 0, 0, attached_t.attach_none⟩ }

/-- An exchange with every field zero. -/
def nano_zero : nanoslot_exchange :=
  { backend_heartbeat := 0, autonomy := ⟨0⟩,
    slot_70_command := ⟨⟨0⟩, ⟨0, 0⟩⟩, slot_71_command := ⟨⟨0⟩, ⟨0, 0⟩⟩,
    slot_72_command := ⟨⟨0⟩, ⟨0, 0⟩⟩, slot_73_command := ⟨⟨0⟩, ⟨0, 0⟩⟩,
    slot_A0_command := ⟨⟨0⟩, ⟨0, 0, 0, 0⟩⟩, slot_A1_command := ⟨⟨0⟩, ⟨0⟩⟩,
    slot_C0_command := ⟨⟨0⟩, ⟨0⟩⟩, slot_D0_command := ⟨⟨0⟩, ⟨0, 0, 0, 0⟩⟩,
    slot_F0_command := ⟨⟨0⟩, ⟨0, 0, 0, 0⟩⟩, slot_F1_command := ⟨⟨0⟩, ⟨0⟩⟩,
    slot_EE_command := ⟨⟨0⟩, ⟨0⟩⟩, slot_A0_sensor_stop := 0 }

/-- A drive-slot driver just constructed against heartbeat value 7. -/
def fresh_driver : nanoslot_lunatic payload_motors Unit :=
  { nanoslot_comms.init with
    last_backend := 7, backend_paused := 0, my_sensor := (),
    my_command := ⟨⟨0⟩, ⟨0, 0, 0, 0⟩⟩, my_state_connected := 1 }

/-- A drive-slot exchange snapshot with the given heartbeat, in autonomy
mode 7 (`state_mine`), commanding 40 percent on every motor. -/
def mining_exchange (heartbeat : Nat) : lunatic_exchange payload_motors Unit :=
  { backend_heartbeat := heartbeat, autonomy := ⟨7⟩,
    my_ex_command := ⟨⟨7⟩, ⟨40, 40, 40, 40⟩⟩, my_ex_sensor := (),
    my_ex_state_connected := 1, my_ex_debug_packet_count := 0 }

/-- An exchange with every field zero except the heartbeat, which is at 255. -/
def nano_heartbeat_255 : nanoslot_exchange := { nano_zero with backend_heartbeat := 255 }

/-- A posture with the elbow leaning back (boom 45, stick 25 degrees) while
the boom is commanded further back at half power; the scoop is up and the
tracks are still. -/
def ebox_robot : robot_base ℚ :=
  { state := robot_state_t.state_drive,
    joint := ⟨0, -20, 45, 25, 0, 0⟩,
    power := ⟨0, 0, 0, 0, -(1 / 2), 0, 0, 0, attached_t.attach_none⟩ }

/-- A packet that failed to arrive. -/
def failed_packet : A_packet Unit :=
  { valid := false, command := A_command.other 0, id_ok := false, sensor := () }

/-- A planner stand-in that accepts every target and leaves `mine_joint` as
it is; the power limit of the mining head is 1. -/
def externals_reachable : backend_externals ℚ :=
  ⟨1, fun _ _ _ j => (1, j), fun _ => ⟨0, 1⟩⟩

/-- A planner stand-in for a cut face out of reach: `mine_plan` returns -1 and
leaves `mine_joint` as it is, as `solve_tilt` does for a target further away
than the arm is long. -/
def externals_unreachable : backend_externals ℚ :=
  ⟨1, fun _ _ _ j => (-1, j), fun _ => ⟨0, 1⟩⟩

/-- Sensor values with a stalled mining head: mining rate 0, no loads. -/
def stalled_sensor : robot_sensors_arduino ℚ := ⟨0, false, 0, 0, 0, 0, 0, 100⟩

/-- Sensor values with the mining head cutting freely: mining rate 100. -/
def cutting_sensor : robot_sensors_arduino ℚ := ⟨100, false, 0, 0, 0, 0, 0, 100⟩

/-- Sensor values of the weighing scenario: scoop load cells at -2 and -3 kgf. -/
def weigh_sensor : robot_sensors_arduino ℚ := ⟨0, false, 0, 0, -2, -3, 0, 100⟩

/-- The backend in state `mine` at the start of a cut: arm at
`mine_joint_base`, grinder attached, tool power 0.5, cut 5, aggro 0.5,
drive 0.6, no backoff and no progress yet, mining head stalled. -/
def mining_manager : robot_manager_t ℚ :=
  { robot :=
      { state := robot_state_t.state_mine,
        joint := mine_joint_base,
        power := ⟨0, 0, 0, 0, 0, 0, 0, 0, attached_t.attach_grinder 0⟩ },
    sensor := stalled_sensor,
    tuneable := ⟨1 / 2, 5, 1 / 2, 6 / 10⟩,
    accum := ⟨0, 0, 0, 0, 0⟩,
    joint_plan := mine_joint_base,
    substep := 0,
    stall_backoff := 0,
    mine_progress := 0,
    cur_time := 0,
    state_start_time := 0,
    mine_start_time := 0,
    autonomy_start_time := 0,
    last_state := robot_state_t.state_mine_start,
    mining_head_lowered := true,
    haul_out_phase := true,
    last_drive_L := 0,
    last_drive_R := 0,
    merged := ⟨0, 0, 0, 0⟩,
    robot_IMUs_OK := true,
    nodrive := false }

/-- The tick input of a stalled mining head with the arm at `mine_joint_base`. -/
def stall_input : tick_input ℚ :=
  ⟨0, stalled_sensor, mine_joint_base, ⟨0, 0, 0, 0, 0, 0, 0, 0, attached_t.attach_grinder 0⟩⟩

/-- The mining backend with the stall backoff at its limit 0.3. -/
def stall_limit_manager : robot_manager_t ℚ :=
  { mining_manager with stall_backoff := 3 / 10 }

/-- The mining backend just before the end of a cut: progress 0.999, the
mining head cutting freely. -/
def last_cut_manager : robot_manager_t ℚ :=
  { mining_manager with sensor := cutting_sensor, mine_progress := 999 / 1000 }

/-- The backend in state `weigh` at sub-step 2, four seconds into the state,
with the scoop load cells at -2 and -3 kgf. -/
def weigh_manager : robot_manager_t ℚ :=
  { mining_manager with
    robot := { mining_manager.robot with state := robot_state_t.state_weigh },
    sensor := weigh_sensor,
    substep := 2,
    cur_time := 4 }

/-- The mining backend after ten stalled ticks, the mining head cutting
freely again: `stall_backoff` at 0.2. -/
def backed_off_manager : robot_manager_t ℚ :=
  { mining_manager with sensor := cutting_sensor, stall_backoff := 2 / 10 }

/-- The backend two seconds into state `mine_stall`, the stall sensor clear. -/
def stall_state_manager : robot_manager_t ℚ :=
  { mining_manager with
    robot := { mining_manager.robot with state := robot_state_t.state_mine_stall },
    cur_time := 2 }

/-- A power vector with every command zero and the grinder attached. -/
def stopped_power : robot_power ℚ := ⟨0, 0, 0, 0, 0, 0, 0, 0, attached_t.attach_grinder 0⟩

/-! ## Checked properties -/

section hazard_lemmas

variable {F : Type} [LinearOrderedField F]

theorem first_hazard_mem {l : List (Option String)} {m : String}
    (h : first_hazard l = some m) : some m ∈ l := by
  induction l with
  | nil => simp [first_hazard] at h
  | cons a rest ih =>
    cases a with
    | none => exact List.mem_cons_of_mem _ (ih (by simpa [first_hazard] using h))
    | some b =>
      simp only [first_hazard, Option.some.injEq] at h
      simp [h]

theorem hazard_block_mem {c : Bool} {body : List (Option String)} {m : String}
    (h : hazard_block c body = some m) : some m ∈ body := by
  unfold hazard_block at h
  split at h
  · exact first_hazard_mem h
  · simp at h

theorem hazard_when_eq {c : Prop} [Decidable c] {msg m : String}
    (h : hazard_when c msg = some m) : msg = m := by
  unfold hazard_when at h
  split at h
  · simpa using h
  · simp at h

end hazard_lemmas

section hazard_theorems

variable {F : Type} [LinearOrderedField F]

theorem scoop_dragging_iff_aux (M : cmath F)
    (coords : robot_joint_state F → hazard_points F)
    (joint : robot_joint_state F) (power : robot_power F) :
    joint_move_hazards M coords joint power = some "scoop dragging on ground" ↔
      (joint.fork < -10 ∨ joint.dump < -70) ∧
        (|power.left| > 1 / 100 ∨ |power.right| > 1 / 100) := by
  unfold joint_move_hazards
  simp only []
  split
  · rename_i h
    simpa using h
  · rename_i h
    split
    · simpa using h
    · constructor
      · intro hh
        exfalso
        have h1 := first_hazard_mem hh
        simp only [List.mem_cons, List.mem_singleton, List.not_mem_nil, or_false] at h1
        rcases h1 with h1 | h1 | h1 | h1 | h1 | h1 | h1 | h1 <;>
        · have h2 := hazard_block_mem h1.symm
          simp only [List.mem_cons, List.mem_singleton] at h2
          rcases h2 with h2 | h2 | h2 | h2 | h2 | h2 <;>
          · first
            | exact absurd (hazard_when_eq h2.symm) (by decide)
            | exact absurd h2 (by simp)
      · intro hh
        exfalso
        apply h
        simpa using hh

/-- C1: `joint_move_hazards` returns "scoop dragging on ground" exactly when
the scoop is down (fork below -10 or dump below -70 degrees) and a drive
track is powered (left or right above 0.01 in magnitude); in particular it
does so at fork = -30, dump = -80, left = right = 0.5. -/
theorem joint_move_hazards_scoop_dragging_iff :
    (∀ (M : cmath F) (coords : robot_joint_state F → hazard_points F)
        (joint : robot_joint_state F) (power : robot_power F),
      joint_move_hazards M coords joint power = some "scoop dragging on ground" ↔
        (joint.fork < -10 ∨ joint.dump < -70) ∧
          (|power.left| > 1 / 100 ∨ |power.right| > 1 / 100)) ∧
    (∀ (M : cmath F) (coords : robot_joint_state F → hazard_points F)
        (joint : robot_joint_state F) (power : robot_power F),
      joint_move_hazards M coords { joint with fork := -30, dump := -80 }
        { power with left := 1 / 2, right := 1 / 2 } = some "scoop dragging on ground") := by
  refine ⟨scoop_dragging_iff_aux, ?_⟩
  intro M coords joint power
  rw [scoop_dragging_iff_aux]
  norm_num [abs_of_pos]

theorem dragging_robot_hazard :
    joint_move_hazards cmath_rat coords_origin dragging_robot.joint dragging_robot.power
      = some "scoop dragging on ground" :=
  (scoop_dragging_iff_aux _ _ _ _).2 (by norm_num [dragging_robot, abs_of_pos])

end hazard_theorems

section motor_theorems

variable {F : Type} [LinearOrderedField F] [FloorRing F]

end motor_theorems

section sanity_theorems

variable {F : Type} [LinearOrderedField F]

end sanity_theorems

/-- C7 fails as stated: for the samples 0 and 128 the code gives +128 where
the formula `((b - a + 128) mod 256) - 128` gives -128. -/
theorem encoder_delta_formula_fails :
    encoder_delta 0 128 = 128 ∧ ((128 : Int) - 0 + 128) % 256 - 128 = -128 ∧
      encoder_delta 0 128 ≠ ((128 : Int) - 0 + 128) % 256 - 128 := by
  decide

/-- C7, amended: for encoder samples `a` (previous) and `b` (current) the
delta is `((b - a + 127) mod 256) - 127`, a value in (-128, +128]: it is +128
when `(b - a) mod 256` is 128 and `((b - a + 128) mod 256) - 128` otherwise. -/
theorem encoder_delta_eq (a b : Nat) :
    encoder_delta a b = ((b : Int) - a + 127) % 256 - 127 ∧
    encoder_delta a b =
      if ((b : Int) - a) % 256 = 128 then 128 else ((b : Int) - a + 128) % 256 - 128 := by
  unfold encoder_delta fix_wrap256
  constructor
  · split <;> omega
  · split <;> split <;> omega

section update_theorems

variable {F : Type} [LinearOrderedField F] [FloorRing F]

/-- C2 fails as stated: in state `drive` (not `driveraw`) with the scoop
dragging hazard raised, the tick still hands the commanded 0.5 track powers
to `arduino_command_write`, which writes -50 percent to all four drive
motors. -/
theorem update_forwards_hazardous_power :
    dragging_robot.state ≠ robot_state_t.state_driveraw ∧
    joint_move_hazards cmath_rat coords_origin dragging_robot.joint dragging_robot.power
      = some "scoop dragging on ground" ∧
    (update_command_path cmath_rat coords_origin dragging_robot nano_zero nano_zero).2.1.power.left
      = 1 / 2 ∧
    (update_command_path cmath_rat coords_origin dragging_robot nano_zero nano_zero).2.1.power.right
      = 1 / 2 ∧
    (update_command_path cmath_rat coords_origin dragging_robot nano_zero nano_zero).2.2.slot_D0_command.payload
      = ⟨-50, -50, -50, -50⟩ := by
  refine ⟨by decide, ?_, ?_, ?_, ?_⟩
  · exact dragging_robot_hazard
  · simp [update_command_path, dragging_robot, nano_zero]
  · simp [update_command_path, dragging_robot, nano_zero]
  · simp [update_command_path, dragging_robot, nano_zero, arduino_command_write,
      robot_power.attached_arm, robot_power.attached_grinder, motor_scale, c_trunc, to_int8]
    norm_num

/-- C2, amended: in a tick whose state is not `driveraw`, a hazard reported
by `joint_move_hazards` is logged and nothing more: as long as the stop input
of slot A0 is clear, `arduino_command_write` receives the robot's power
unchanged. -/
theorem update_hazard_only_logged (M : cmath F)
    (coords : robot_joint_state F → hazard_points F)
    (robot : robot_base F) (nano_read nano_write : nanoslot_exchange) (h : String)
    (hstate : robot.state ≠ robot_state_t.state_driveraw)
    (hhaz : joint_move_hazards M coords robot.joint robot.power = some h)
    (hstop : nano_read.slot_A0_sensor_stop = 0) :
    update_command_path M coords robot nano_read nano_write =
      (some (" -- HAZARD: " ++ h ++ " --"), robot, arduino_command_write robot nano_write) := by
  unfold update_command_path
  simp [hhaz, hstate, hstop]

end update_theorems

/-- The amended C2 at the hazard-veto scenario. -/
theorem update_hazard_only_logged_witness :
    update_command_path cmath_rat coords_origin dragging_robot nano_zero nano_zero =
      (some (" -- HAZARD: " ++ "scoop dragging on ground" ++ " --"), dragging_robot,
        arduino_command_write dragging_robot nano_zero) :=
  update_hazard_only_logged cmath_rat coords_origin dragging_robot nano_zero nano_zero
    "scoop dragging on ground" (by decide) dragging_robot_hazard rfl

section driver_theorems

variable {P S : Type}

theorem read_packet_failed {S : Type} (c : nanoslot_comms) (p : A_packet S)
    (hp : p.valid = false) :
    ((read_packet c p).1.is_connected = false ↔
      c.is_connected = false ∨ (10 ≤ c.packet_count ∧ 10 ≤ c.fail_count + 1) ∨
        100 ≤ c.fail_count + 1) ∧
    (read_packet c p).1.fail_count = c.fail_count + 1 ∧
    (read_packet c p).1.packet_count = c.packet_count ∧
    (read_packet c p).2 = false := by
  unfold read_packet
  simp only [hp, Bool.false_eq_true, if_false, ge_iff_le]
  by_cases h10 : 10 ≤ c.packet_count ∧ 10 ≤ c.fail_count + 1
  · rw [if_pos h10]
    simp [h10]
  · rw [if_neg h10]
    by_cases h100 : 100 ≤ c.fail_count + 1
    · simp only [h100, decide_True, if_true, or_true, and_self]
    · simp only [h100, h10, decide_False, Bool.false_eq_true, if_false, or_false, and_self,
        and_true]

theorem main_loop_failed {P S : Type} (nano : lunatic_exchange P S)
    (inputs : List (A_packet S × lunatic_exchange P S)) :
    ∀ comm : nanoslot_lunatic P S,
      (∀ i ∈ inputs, i.1.valid = false) →
      (comm.is_connected = false ∨ (inputs ≠ [] ∧ 100 ≤ comm.fail_count + inputs.length)) →
      ∃ comm1, main_loop comm nano inputs = some (comm1, []) ∧ comm1.is_connected = false := by
  induction inputs with
  | nil =>
    intro comm _ h
    rcases h with h | h
    · exact ⟨comm, rfl, h⟩
    · exact absurd rfl h.1
  | cons i rest ih =>
    intro comm hall h
    obtain ⟨p, nano_read⟩ := i
    by_cases hc : comm.is_connected = true
    · have hp : p.valid = false := hall (p, nano_read) (List.mem_cons_self _ _)
      have hlen : 100 ≤ comm.fail_count + (rest.length + 1) := by
        rcases h with h | h
        · rw [hc] at h
          exact absurd h (by decide)
        · simpa using h.2
      have hr := read_packet_failed comm.tonanoslot_comms p hp
      have hrest := ih { comm with tonanoslot_comms := (read_packet comm.tonanoslot_comms p).1 }
        (fun i hi => hall i (List.mem_cons_of_mem _ hi)) (by
          by_cases hcase : 100 ≤ comm.fail_count + 1
          · left
            exact hr.1.mpr (Or.inr (Or.inr hcase))
          · right
            refine ⟨?_, ?_⟩
            · intro h0
              rw [h0] at hlen
              simp at hlen
              omega
            · show 100 ≤ (read_packet comm.tonanoslot_comms p).1.fail_count + rest.length
              rw [hr.2.1]
              omega)
      obtain ⟨comm1, hloop, hdis⟩ := hrest
      refine ⟨comm1, ?_, hdis⟩
      simp only [main_loop, hc, if_true, main_iteration, hr.2.2.2, Bool.false_eq_true, if_false]
      rw [hloop]
      rfl
    · have hc2 : comm.is_connected = false := by simpa using hc
      exact ⟨comm, by simp [main_loop, hc2], hc2⟩

/-- C6: for a connected driver, a failed `read_packet` marks the driver
disconnected exactly when, counting this failure, there have been at least
10 consecutive failures after at least 10 valid packets, or at least 100
consecutive failures; each failure adds one to the consecutive-failure count
and a valid packet resets it to 0 (leaving the driver connected); hence 100
failed reads in a row end the driver loop with the driver disconnected. -/
theorem read_packet_disconnect_policy {S : Type} (c : nanoslot_comms) (p : A_packet S)
    (hc : c.is_connected = true) :
    (p.valid = false →
      ((read_packet c p).1.is_connected = false ↔
        (10 ≤ c.packet_count ∧ 10 ≤ c.fail_count + 1) ∨ 100 ≤ c.fail_count + 1) ∧
      (read_packet c p).1.fail_count = c.fail_count + 1 ∧
      (read_packet c p).1.packet_count = c.packet_count ∧
      (read_packet c p).2 = false) ∧
    (p.valid = true →
      (read_packet c p).1.fail_count = 0 ∧
      (read_packet c p).1.packet_count = c.packet_count + 1 ∧
      (read_packet c p).1.is_connected = true ∧
      (read_packet c p).2 = true) ∧
    (∀ (P : Type) (comm : nanoslot_lunatic P S) (nano : lunatic_exchange P S)
        (inputs : List (A_packet S × lunatic_exchange P S)),
      100 ≤ inputs.length → (∀ i ∈ inputs, i.1.valid = false) →
      ∃ comm1, main_loop comm nano inputs = some (comm1, []) ∧
        comm1.is_connected = false) := by
  refine ⟨?_, ?_, ?_⟩
  · intro hp
    have h := read_packet_failed c p hp
    refine ⟨?_, h.2⟩
    rw [h.1, hc]
    simp
  · intro hp
    simp [read_packet, hp, hc]
  · intro P comm nano inputs hlen hall
    apply main_loop_failed nano inputs comm hall
    right
    refine ⟨?_, by omega⟩
    intro h0
    rw [h0] at hlen
    simp at hlen

/-- C6 at a concrete run: a freshly started drive-slot driver fed 100 failed
reads leaves its loop disconnected, having sent nothing. -/
theorem read_packet_disconnect_policy_witness :
    ∃ comm1, main_loop fresh_driver (mining_exchange 7)
        (List.replicate 100 (failed_packet, mining_exchange 7)) = some (comm1, []) ∧
      comm1.is_connected = false :=
  (read_packet_disconnect_policy nanoslot_comms.init failed_packet rfl).2.2
    payload_motors fresh_driver (mining_exchange 7)
    (List.replicate 100 (failed_packet, mining_exchange 7)) (by simp)
    (by
      intro i hi
      rw [List.eq_of_mem_replicate hi]
      rfl)

end driver_theorems

section ik_theorems

variable {F : Type} [LinearOrderedField F]

theorem solve_tilt_ret (M : cmath F) (ik : excahauler_IK F) (joint : robot_joint_state F)
    (tilt_loc : vec3 F) (tool_deg : F) :
    (ik.solve_tilt M joint tilt_loc tool_deg).1 =
      if (-1 ≤ (ik.boom_len * ik.boom_len
              + (tilt_loc.sub ik.boomG.origin).length M * (tilt_loc.sub ik.boomG.origin).length M
              - ik.stick_len * ik.stick_len)
            / (2 * ik.boom_len * (tilt_loc.sub ik.boomG.origin).length M) ∧
          (ik.boom_len * ik.boom_len
              + (tilt_loc.sub ik.boomG.origin).length M * (tilt_loc.sub ik.boomG.origin).length M
              - ik.stick_len * ik.stick_len)
            / (2 * ik.boom_len * (tilt_loc.sub ik.boomG.origin).length M) ≤ 1) ∧
         (-1 ≤ (ik.boom_len * ik.boom_len + ik.stick_len * ik.stick_len
              - (tilt_loc.sub ik.boomG.origin).length M * (tilt_loc.sub ik.boomG.origin).length M)
            / (2 * ik.boom_len * ik.stick_len) ∧
          (ik.boom_len * ik.boom_len + ik.stick_len * ik.stick_len
              - (tilt_loc.sub ik.boomG.origin).length M * (tilt_loc.sub ik.boomG.origin).length M)
            / (2 * ik.boom_len * ik.stick_len) ≤ 1)
      then 1 else -1 := by
  unfold excahauler_IK.solve_tilt
  simp only []
  generalize (ik.boom_len * ik.boom_len
      + (tilt_loc.sub ik.boomG.origin).length M * (tilt_loc.sub ik.boomG.origin).length M
      - ik.stick_len * ik.stick_len)
    / (2 * ik.boom_len * (tilt_loc.sub ik.boomG.origin).length M) = x
  generalize (ik.boom_len * ik.boom_len + ik.stick_len * ik.stick_len
      - (tilt_loc.sub ik.boomG.origin).length M * (tilt_loc.sub ik.boomG.origin).length M)
    / (2 * ik.boom_len * ik.stick_len) = y
  by_cases hx : x > 1 ∨ x < -1
  · rw [if_pos hx, if_neg]
    intro h
    rcases hx with hx | hx <;> linarith [h.1.1, h.1.2]
  · rw [if_neg hx]
    push_neg at hx
    by_cases hy : y > 1 ∨ y < -1
    · rw [if_pos hy, if_neg]
      intro h
      rcases hy with hy | hy <;> linarith [h.2.1, h.2.2]
    · rw [if_neg hy]
      push_neg at hy
      have hh : (-1 ≤ x ∧ x ≤ 1) ∧ -1 ≤ y ∧ y ≤ 1 := ⟨⟨hx.2, hx.1⟩, ⟨hy.2, hy.1⟩⟩
      simp only [hh, and_self, if_true]

theorem solve_tilt_full_extension_aux (M : cmath F) (ik : excahauler_IK F)
    (joint : robot_joint_state F) (tilt_loc : vec3 F) (tool_deg : F)
    (ha : 0 < ik.boom_len) (hc : 0 < ik.stick_len)
    (hacos1 : M.acos 1 = 0) (hacosm1 : M.RAD2DEG * M.acos (-1) = 180)
    (hb : (tilt_loc.sub ik.boomG.origin).length M = ik.boom_len + ik.stick_len) :
    (ik.solve_tilt M joint tilt_loc tool_deg).1 = 1 ∧
    (ik.solve_tilt M joint tilt_loc tool_deg).2.boom
      = frame_degrees M (tilt_loc.sub ik.boomG.origin) - ik.boom_start ∧
    (ik.solve_tilt M joint tilt_loc tool_deg).2.stick = ik.boom_start - ik.stick_start ∧
    (ik.solve_tilt M joint tilt_loc tool_deg).2.boom
        + (ik.solve_tilt M joint tilt_loc tool_deg).2.stick - 180
      = frame_degrees M (tilt_loc.sub ik.boomG.origin) - ik.stick_start - 180 := by
  have h1 : (ik.boom_len * ik.boom_len
      + (tilt_loc.sub ik.boomG.origin).length M * (tilt_loc.sub ik.boomG.origin).length M
      - ik.stick_len * ik.stick_len)
    / (2 * ik.boom_len * (tilt_loc.sub ik.boomG.origin).length M) = 1 := by
    rw [hb]
    have : 2 * ik.boom_len * (ik.boom_len + ik.stick_len) ≠ 0 := by positivity
    field_simp
    ring
  have h2 : (ik.boom_len * ik.boom_len + ik.stick_len * ik.stick_len
      - (tilt_loc.sub ik.boomG.origin).length M * (tilt_loc.sub ik.boomG.origin).length M)
    / (2 * ik.boom_len * ik.stick_len) = -1 := by
    rw [hb]
    have : 2 * ik.boom_len * ik.stick_len ≠ 0 := by positivity
    field_simp
    ring
  unfold excahauler_IK.solve_tilt
  simp only []
  rw [h1, h2, hacos1, hacosm1]
  have e1 : ¬ ((1 : F) > 1 ∨ (1 : F) < -1) := by norm_num
  have e2 : ¬ ((-1 : F) > 1 ∨ (-1 : F) < -1) := by norm_num
  rw [if_neg e1, if_neg e2]
  refine ⟨rfl, ?_, ?_, ?_⟩
  · split_ifs <;> simp
  · split_ifs <;> simp only [] <;> ring
  · split_ifs <;> simp only [] <;> ring

/-- C10, amended: for every target whose distance from the boom origin is
exactly boom length plus stick length, `solve_tilt` returns +1 (given a math
library with `acos 1 = 0` and `RAD2DEG * acos (-1) = 180`) and leaves
`angle.boom = tilt_deg - boom_start`, `angle.stick = boom_start - stick_start`
(boom and stick in line), so that `angle.boom + angle.stick - 180` is
`tilt_deg - stick_start - 180`, where `tilt_deg` is the direction of the
target. -/
theorem solve_tilt_full_extension (M : cmath F) (ik : excahauler_IK F)
    (joint : robot_joint_state F) (tilt_loc : vec3 F) (tool_deg : F)
    (ha : 0 < ik.boom_len) (hc : 0 < ik.stick_len)
    (hacos1 : M.acos 1 = 0) (hacosm1 : M.RAD2DEG * M.acos (-1) = 180)
    (hb : (tilt_loc.sub ik.boomG.origin).length M = ik.boom_len + ik.stick_len) :
    (ik.solve_tilt M joint tilt_loc tool_deg).1 = 1 ∧
    (ik.solve_tilt M joint tilt_loc tool_deg).2.boom
      = frame_degrees M (tilt_loc.sub ik.boomG.origin) - ik.boom_start ∧
    (ik.solve_tilt M joint tilt_loc tool_deg).2.stick = ik.boom_start - ik.stick_start ∧
    (ik.solve_tilt M joint tilt_loc tool_deg).2.boom
        + (ik.solve_tilt M joint tilt_loc tool_deg).2.stick - 180
      = frame_degrees M (tilt_loc.sub ik.boomG.origin) - ik.stick_start - 180 :=
  solve_tilt_full_extension_aux M ik joint tilt_loc tool_deg ha hc hacos1 hacosm1 hb

end ik_theorems

theorem real_boom_len_pos : 0 < (excahauler_IK.init cmath_real).boom_len := by
  simp only [excahauler_IK.init, link_geometry, vec3.length, cmath_real]
  exact Real.sqrt_pos.mpr (by norm_num)

theorem real_stick_len_pos : 0 < (excahauler_IK.init cmath_real).stick_len := by
  simp only [excahauler_IK.init, link_geometry, vec3.length, cmath_real]
  exact Real.sqrt_pos.mpr (by norm_num)

theorem real_acos_one : cmath_real.acos 1 = 0 := by
  simp [cmath_real]

theorem real_acos_neg_one : cmath_real.RAD2DEG * cmath_real.acos (-1) = 180 := by
  simp only [cmath_real, Real.arccos_neg_one]
  exact div_mul_cancel₀ _ Real.pi_ne_zero

theorem full_extension_len :
    (full_extension_target.sub (excahauler_IK.init cmath_real).boomG.origin).length cmath_real
      = (excahauler_IK.init cmath_real).boom_len + (excahauler_IK.init cmath_real).stick_len := by
  have ha := real_boom_len_pos
  have hc := real_stick_len_pos
  generalize hA : (excahauler_IK.init cmath_real).boom_len = a at ha ⊢
  generalize hC : (excahauler_IK.init cmath_real).stick_len = c at hc ⊢
  have hO : (excahauler_IK.init cmath_real).boomG.origin = ⟨0, 570 / 1000, 215 / 1000⟩ := by
    simp [excahauler_IK.init, link_geometry]
  rw [hO]
  simp only [full_extension_target, vec3.sub, vec3.length, hA, hC]
  show Real.sqrt _ = a + c
  rw [show (0 - 0) * (0 - 0) + (570 / 1000 + (a + c) - 570 / 1000) * (570 / 1000 + (a + c) - 570 / 1000)
      + (215 / 1000 - 215 / 1000) * (215 / 1000 - 215 / 1000) = (a + c) ^ 2 by ring]
  exact Real.sqrt_sq (by linarith)

theorem full_extension_tilt_deg :
    frame_degrees cmath_real
      (full_extension_target.sub (excahauler_IK.init cmath_real).boomG.origin) = 0 := by
  have ha := real_boom_len_pos
  have hc := real_stick_len_pos
  generalize hA : (excahauler_IK.init cmath_real).boom_len = a at ha ⊢
  generalize hC : (excahauler_IK.init cmath_real).stick_len = c at hc ⊢
  have hO : (excahauler_IK.init cmath_real).boomG.origin = ⟨0, 570 / 1000, 215 / 1000⟩ := by
    simp [excahauler_IK.init, link_geometry]
  rw [hO]
  simp only [full_extension_target, vec3.sub, frame_degrees, hA, hC]
  show 180 / Real.pi
    * Complex.arg ⟨570 / 1000 + (a + c) - 570 / 1000, 215 / 1000 - 215 / 1000⟩ = 0
  have harg : Complex.arg ⟨570 / 1000 + (a + c) - 570 / 1000, 215 / 1000 - 215 / 1000⟩ = 0 := by
    rw [Complex.arg_eq_zero_iff]
    constructor
    · show (0 : ℝ) ≤ 570 / 1000 + (a + c) - 570 / 1000
      linarith
    · show (215 / 1000 - 215 / 1000 : ℝ) = 0
      norm_num
  rw [harg, mul_zero]

theorem real_stick_start_pos : 0 < (excahauler_IK.init cmath_real).stick_start := by
  simp only [excahauler_IK.init, link_geometry, frame_degrees, cmath_real]
  apply mul_pos (div_pos (by norm_num) Real.pi_pos)
  have h0 : 0 ≤ Complex.arg ⟨735 / 1000, 12 / 1000⟩ := by
    rw [Complex.arg_nonneg_iff]
    show (0 : ℝ) ≤ 12 / 1000
    norm_num
  have h1 : Complex.arg ⟨735 / 1000, 12 / 1000⟩ ≠ 0 := by
    rw [Ne, Complex.arg_eq_zero_iff]
    intro h
    have h2 : (12 / 1000 : ℝ) = 0 := h.2
    norm_num at h2
  exact lt_of_le_of_ne h0 (Ne.symm h1)

/-- C10 fails as stated: for the target straight ahead at distance boom plus
stick, `solve_tilt` returns +1 but `angle.boom + angle.stick - 180` is below
-180 degrees, not 0. -/
theorem full_extension_sum_not_zero :
    ((excahauler_IK.init cmath_real).solve_tilt cmath_real ⟨0, 0, 0, 0, 0, 0⟩
        full_extension_target 0).1 = 1 ∧
    ((excahauler_IK.init cmath_real).solve_tilt cmath_real ⟨0, 0, 0, 0, 0, 0⟩
        full_extension_target 0).2.boom
      + ((excahauler_IK.init cmath_real).solve_tilt cmath_real ⟨0, 0, 0, 0, 0, 0⟩
        full_extension_target 0).2.stick - 180 < -180 := by
  have h := solve_tilt_full_extension_aux cmath_real (excahauler_IK.init cmath_real)
    ⟨0, 0, 0, 0, 0, 0⟩ full_extension_target 0 real_boom_len_pos real_stick_len_pos
    real_acos_one real_acos_neg_one full_extension_len
  refine ⟨h.1, ?_⟩
  rw [h.2.2.2, full_extension_tilt_deg]
  linarith [real_stick_start_pos]

/-- The amended C10 at the target straight ahead at full extension, over the
reals with the robot's own geometry. -/
theorem solve_tilt_full_extension_witness :
    ((excahauler_IK.init cmath_real).solve_tilt cmath_real ⟨0, 0, 0, 0, 0, 0⟩
        full_extension_target 0).2.stick
      = (excahauler_IK.init cmath_real).boom_start
        - (excahauler_IK.init cmath_real).stick_start :=
  (solve_tilt_full_extension cmath_real (excahauler_IK.init cmath_real)
    ⟨0, 0, 0, 0, 0, 0⟩ full_extension_target 0 real_boom_len_pos real_stick_len_pos
    real_acos_one real_acos_neg_one full_extension_len).2.2.1

section fk_theorems

theorem link_coords_tilt {F : Type} [LinearOrderedField F] (M : cmath F)
    (j : robot_joint_state F) :
    link_coords M j link_count robot_link_index.link_tilt =
      ((robot_coord3D.identity.compose (link_local_coords M j robot_link_index.link_boom)).compose
        (link_local_coords M j robot_link_index.link_stick)).compose
        (link_local_coords M j robot_link_index.link_tilt) := by
  simp [link_count, link_coords, link_geometry]

theorem link_local_coords_boom (j : robot_joint_state ℝ) :
    link_local_coords cmath_real j robot_link_index.link_boom =
      ⟨⟨0, 570 / 1000, 215 / 1000⟩, ⟨1, 0, 0⟩,
        ⟨0, Real.cos (j.boom / (180 / Real.pi)), Real.sin (j.boom / (180 / Real.pi))⟩,
        ⟨0, -Real.sin (j.boom / (180 / Real.pi)), Real.cos (j.boom / (180 / Real.pi))⟩⟩ := by
  simp [link_local_coords, link_geometry, axis_rotation, cmath_real, robot_joint_state.array]

theorem link_local_coords_stick (j : robot_joint_state ℝ) :
    link_local_coords cmath_real j robot_link_index.link_stick =
      ⟨⟨0, -(312 / 1000), 750 / 1000⟩, ⟨1, 0, 0⟩,
        ⟨0, Real.cos (j.stick / (180 / Real.pi)), Real.sin (j.stick / (180 / Real.pi))⟩,
        ⟨0, -Real.sin (j.stick / (180 / Real.pi)), Real.cos (j.stick / (180 / Real.pi))⟩⟩ := by
  simp [link_local_coords, link_geometry, axis_rotation, cmath_real, robot_joint_state.array]

theorem link_local_coords_tilt (j : robot_joint_state ℝ) :
    link_local_coords cmath_real j robot_link_index.link_tilt =
      ⟨⟨0, 735 / 1000, 12 / 1000⟩, ⟨1, 0, 0⟩,
        ⟨0, Real.cos (j.tilt / (180 / Real.pi)), Real.sin (j.tilt / (180 / Real.pi))⟩,
        ⟨0, -Real.sin (j.tilt / (180 / Real.pi)), Real.cos (j.tilt / (180 / Real.pi))⟩⟩ := by
  simp [link_local_coords, link_geometry, axis_rotation, cmath_real, robot_joint_state.array]

theorem compose_identity {F : Type} [LinearOrderedField F] (c : robot_coord3D F) :
    robot_coord3D.identity.compose c = c := by
  cases c with
  | mk o X Y Z =>
    cases o
    cases X
    cases Y
    cases Z
    simp [robot_coord3D.compose, robot_coord3D.identity, robot_coord3D.world_from_local,
      robot_coord3D.world_from_local_dir, vec3.add, vec3.scale]

theorem compose_rotX (o1 o2 : vec3 ℝ) (t1 t2 : ℝ) :
    (robot_coord3D.compose
      ⟨o1, ⟨1, 0, 0⟩, ⟨0, Real.cos t1, Real.sin t1⟩, ⟨0, -Real.sin t1, Real.cos t1⟩⟩
      ⟨o2, ⟨1, 0, 0⟩, ⟨0, Real.cos t2, Real.sin t2⟩, ⟨0, -Real.sin t2, Real.cos t2⟩⟩) =
    ⟨⟨o1.x + o2.x, o1.y + (o2.y * Real.cos t1 - o2.z * Real.sin t1),
        o1.z + (o2.y * Real.sin t1 + o2.z * Real.cos t1)⟩,
      ⟨1, 0, 0⟩, ⟨0, Real.cos (t1 + t2), Real.sin (t1 + t2)⟩,
      ⟨0, -Real.sin (t1 + t2), Real.cos (t1 + t2)⟩⟩ := by
  simp only [robot_coord3D.compose, robot_coord3D.world_from_local,
    robot_coord3D.world_from_local_dir, vec3.add, vec3.scale, Real.cos_add, Real.sin_add,
    robot_coord3D.mk.injEq, vec3.mk.injEq]
  refine ⟨⟨?_, ?_, ?_⟩, ⟨?_, ?_, ?_⟩, ⟨?_, ?_, ?_⟩, ⟨?_, ?_, ?_⟩⟩ <;> ring

theorem link_coords_tilt_real (j : robot_joint_state ℝ) :
    link_coords cmath_real j link_count robot_link_index.link_tilt =
      ⟨⟨0,
        570 / 1000
          + (-(312 / 1000) * Real.cos (j.boom / (180 / Real.pi))
              - 750 / 1000 * Real.sin (j.boom / (180 / Real.pi)))
          + (735 / 1000 * Real.cos (j.boom / (180 / Real.pi) + j.stick / (180 / Real.pi))
              - 12 / 1000 * Real.sin (j.boom / (180 / Real.pi) + j.stick / (180 / Real.pi))),
        215 / 1000
          + (-(312 / 1000) * Real.sin (j.boom / (180 / Real.pi))
              + 750 / 1000 * Real.cos (j.boom / (180 / Real.pi)))
          + (735 / 1000 * Real.sin (j.boom / (180 / Real.pi) + j.stick / (180 / Real.pi))
              + 12 / 1000 * Real.cos (j.boom / (180 / Real.pi) + j.stick / (180 / Real.pi)))⟩,
       ⟨1, 0, 0⟩,
       ⟨0, Real.cos (j.boom / (180 / Real.pi) + j.stick / (180 / Real.pi)
              + j.tilt / (180 / Real.pi)),
          Real.sin (j.boom / (180 / Real.pi) + j.stick / (180 / Real.pi)
              + j.tilt / (180 / Real.pi))⟩,
       ⟨0, -Real.sin (j.boom / (180 / Real.pi) + j.stick / (180 / Real.pi)
              + j.tilt / (180 / Real.pi)),
          Real.cos (j.boom / (180 / Real.pi) + j.stick / (180 / Real.pi)
              + j.tilt / (180 / Real.pi))⟩⟩ := by
  rw [link_coords_tilt, compose_identity, link_local_coords_boom, link_local_coords_stick,
    link_local_coords_tilt, compose_rotX, compose_rotX]
  simp only [robot_coord3D.mk.injEq, vec3.mk.injEq, and_true, true_and]
  norm_num

theorem vec3_ext_iff {F : Type} (a b : vec3 F) : a = b ↔ a.x = b.x ∧ a.y = b.y ∧ a.z = b.z := by
  cases a
  cases b
  simp

theorem arg_unit_vector (t : ℝ) :
    ∃ k : ℤ, Complex.arg ⟨Real.cos t, Real.sin t⟩ = t + 2 * Real.pi * k := by
  have h := Complex.arg_cos_add_sin_mul_I_sub t
  have e : (⟨Real.cos t, Real.sin t⟩ : ℂ) = Complex.cos t + Complex.sin t * Complex.I := by
    apply Complex.ext
    · simp [← Complex.ofReal_cos, ← Complex.ofReal_sin]
    · simp [← Complex.ofReal_cos, ← Complex.ofReal_sin]
  refine ⟨⌊(Real.pi - t) / (2 * Real.pi)⌋, ?_⟩
  rw [e]
  linarith

theorem polar_yz (y z : ℝ) (h : 0 < Real.sqrt (0 * 0 + y * y + z * z)) :
    y = Real.sqrt (0 * 0 + y * y + z * z) * Real.cos (Complex.arg ⟨y, z⟩) ∧
    z = Real.sqrt (0 * 0 + y * y + z * z) * Real.sin (Complex.arg ⟨y, z⟩) := by
  have habs : Complex.abs ⟨y, z⟩ = Real.sqrt (0 * 0 + y * y + z * z) := by
    rw [Complex.abs_apply, Complex.normSq_apply]
    congr 1
    ring
  have hne : (⟨y, z⟩ : ℂ) ≠ 0 := by
    intro h0
    rw [← habs, h0] at h
    simp at h
  rw [Complex.cos_arg hne, Complex.sin_arg, habs]
  generalize Real.sqrt (0 * 0 + y * y + z * z) = r at h
  show y = r * (y / r) ∧ z = r * (z / r)
  constructor
  · field_simp
  · field_simp

theorem two_bar_identity (a b c p bs ss ct cs : ℝ) (ha : 0 < a) (hb : 0 < b) (hc : 0 < c)
    (hct : ct = (a * a + b * b - c * c) / (2 * a * b))
    (hcs : cs = (a * a + c * c - b * b) / (2 * a * c))
    (hct1 : -1 ≤ ct ∧ ct ≤ 1) (hcs1 : -1 ≤ cs ∧ cs ≤ 1) :
    a * Real.cos bs * Real.cos (p + Real.arccos ct - bs)
        - a * Real.sin bs * Real.sin (p + Real.arccos ct - bs)
      + (c * Real.cos ss
            * Real.cos (p + Real.arccos ct - bs + (Real.arccos cs - ss + bs - Real.pi))
          - c * Real.sin ss
            * Real.sin (p + Real.arccos ct - bs + (Real.arccos cs - ss + bs - Real.pi)))
      = b * Real.cos p ∧
    a * Real.cos bs * Real.sin (p + Real.arccos ct - bs)
        + a * Real.sin bs * Real.cos (p + Real.arccos ct - bs)
      + (c * Real.cos ss
            * Real.sin (p + Real.arccos ct - bs + (Real.arccos cs - ss + bs - Real.pi))
          + c * Real.sin ss
            * Real.cos (p + Real.arccos ct - bs + (Real.arccos cs - ss + bs - Real.pi)))
      = b * Real.sin p := by
  -- the three facts of the triangle
  have hCt : Real.cos (Real.arccos ct) = ct := Real.cos_arccos hct1.1 hct1.2
  have hCs : Real.cos (Real.arccos cs) = cs := Real.cos_arccos hcs1.1 hcs1.2
  have hSt0 : 0 ≤ Real.sin (Real.arccos ct) := Real.sin_nonneg_of_nonneg_of_le_pi
    (Real.arccos_nonneg _) (Real.arccos_le_pi _)
  have hSs0 : 0 ≤ Real.sin (Real.arccos cs) := Real.sin_nonneg_of_nonneg_of_le_pi
    (Real.arccos_nonneg _) (Real.arccos_le_pi _)
  have hSt2 : Real.sin (Real.arccos ct) ^ 2 = 1 - ct ^ 2 := by
    have := Real.sin_sq_add_cos_sq (Real.arccos ct)
    rw [hCt] at this
    linarith
  have hSs2 : Real.sin (Real.arccos cs) ^ 2 = 1 - cs ^ 2 := by
    have := Real.sin_sq_add_cos_sq (Real.arccos cs)
    rw [hCs] at this
    linarith
  have hproj : a = c * cs + b * ct := by
    rw [hct, hcs]
    field_simp
    ring
  have hsines : b * Real.sin (Real.arccos ct) = c * Real.sin (Real.arccos cs) := by
    have hsq : (b * Real.sin (Real.arccos ct)) ^ 2 = (c * Real.sin (Real.arccos cs)) ^ 2 := by
      rw [mul_pow, mul_pow, hSt2, hSs2, hct, hcs]
      field_simp
      ring
    exact (sq_eq_sq₀ (mul_nonneg hb.le hSt0) (mul_nonneg hc.le hSs0)).mp hsq
  have e2 : p + Real.arccos ct - bs + (Real.arccos cs - ss + bs - Real.pi)
      = ((p + Real.arccos ct) + Real.arccos cs - ss) - Real.pi := by ring
  rw [e2, Real.cos_sub_pi, Real.sin_sub_pi]
  simp only [Real.cos_sub, Real.sin_sub, Real.cos_add, Real.sin_add, hCt, hCs]
  have hbs := Real.sin_sq_add_cos_sq bs
  have hss := Real.sin_sq_add_cos_sq ss
  generalize Real.sin (Real.arccos ct) = st at hSt2 hsines ⊢
  generalize Real.sin (Real.arccos cs) = sn at hSs2 hsines ⊢
  have hpyth : ct ^ 2 + st ^ 2 = 1 := by linarith
  generalize Real.cos p = cp
  generalize Real.sin p = sp
  generalize Real.cos bs = cb at hbs ⊢
  generalize Real.sin bs = sb at hbs ⊢
  generalize Real.cos ss = cq at hss ⊢
  generalize Real.sin ss = sq at hss ⊢
  constructor
  · linear_combination (a * (cp * ct - sp * st)) * hbs
      + (-(c * ((cp * ct - sp * st) * cs - (sp * ct + cp * st) * sn))) * hss
      + (cp * ct - sp * st) * hproj + (-(sp * ct + cp * st)) * hsines + (b * cp) * hpyth
  · linear_combination (a * (sp * ct + cp * st)) * hbs
      + (-(c * ((sp * ct + cp * st) * cs + (cp * ct - sp * st) * sn))) * hss
      + (sp * ct + cp * st) * hproj + (cp * ct - sp * st) * hsines + (b * sp) * hpyth

theorem solve_tilt_angles {F : Type} [LinearOrderedField F] (M : cmath F)
    (ik : excahauler_IK F) (joint : robot_joint_state F) (tilt_loc : vec3 F) (tool_deg : F)
    (h : (ik.solve_tilt M joint tilt_loc tool_deg).1 = 1) :
    ((-1 ≤ (ik.boom_len * ik.boom_len
              + (tilt_loc.sub ik.boomG.origin).length M * (tilt_loc.sub ik.boomG.origin).length M
              - ik.stick_len * ik.stick_len)
            / (2 * ik.boom_len * (tilt_loc.sub ik.boomG.origin).length M) ∧
        (ik.boom_len * ik.boom_len
              + (tilt_loc.sub ik.boomG.origin).length M * (tilt_loc.sub ik.boomG.origin).length M
              - ik.stick_len * ik.stick_len)
            / (2 * ik.boom_len * (tilt_loc.sub ik.boomG.origin).length M) ≤ 1) ∧
      (-1 ≤ (ik.boom_len * ik.boom_len + ik.stick_len * ik.stick_len
              - (tilt_loc.sub ik.boomG.origin).length M * (tilt_loc.sub ik.boomG.origin).length M)
            / (2 * ik.boom_len * ik.stick_len) ∧
        (ik.boom_len * ik.boom_len + ik.stick_len * ik.stick_len
              - (tilt_loc.sub ik.boomG.origin).length M * (tilt_loc.sub ik.boomG.origin).length M)
            / (2 * ik.boom_len * ik.stick_len) ≤ 1)) ∧
    (ik.solve_tilt M joint tilt_loc tool_deg).2.boom
      = frame_degrees M (tilt_loc.sub ik.boomG.origin)
        + M.RAD2DEG * M.acos ((ik.boom_len * ik.boom_len
              + (tilt_loc.sub ik.boomG.origin).length M * (tilt_loc.sub ik.boomG.origin).length M
              - ik.stick_len * ik.stick_len)
            / (2 * ik.boom_len * (tilt_loc.sub ik.boomG.origin).length M))
        - ik.boom_start ∧
    (ik.solve_tilt M joint tilt_loc tool_deg).2.stick
      = M.RAD2DEG * M.acos ((ik.boom_len * ik.boom_len + ik.stick_len * ik.stick_len
              - (tilt_loc.sub ik.boomG.origin).length M * (tilt_loc.sub ik.boomG.origin).length M)
            / (2 * ik.boom_len * ik.stick_len))
        - ik.stick_start + ik.boom_start - 180 ∧
    ((ik.solve_tilt M joint tilt_loc tool_deg).2.tilt
        = tool_deg - (ik.solve_tilt M joint tilt_loc tool_deg).2.stick
          - (ik.solve_tilt M joint tilt_loc tool_deg).2.boom ∨
      (ik.solve_tilt M joint tilt_loc tool_deg).2.tilt
        = tool_deg - (ik.solve_tilt M joint tilt_loc tool_deg).2.stick
          - (ik.solve_tilt M joint tilt_loc tool_deg).2.boom + 360) := by
  have hr := solve_tilt_ret M ik joint tilt_loc tool_deg
  rw [h] at hr
  split_ifs at hr with hcond
  refine ⟨hcond, ?_⟩
  unfold excahauler_IK.solve_tilt
  simp only []
  have e1 : ¬ ((ik.boom_len * ik.boom_len
              + (tilt_loc.sub ik.boomG.origin).length M * (tilt_loc.sub ik.boomG.origin).length M
              - ik.stick_len * ik.stick_len)
            / (2 * ik.boom_len * (tilt_loc.sub ik.boomG.origin).length M) > 1 ∨
      (ik.boom_len * ik.boom_len
              + (tilt_loc.sub ik.boomG.origin).length M * (tilt_loc.sub ik.boomG.origin).length M
              - ik.stick_len * ik.stick_len)
            / (2 * ik.boom_len * (tilt_loc.sub ik.boomG.origin).length M) < -1) := by
    push_neg
    exact ⟨hcond.1.2, hcond.1.1⟩
  have e2 : ¬ ((ik.boom_len * ik.boom_len + ik.stick_len * ik.stick_len
              - (tilt_loc.sub ik.boomG.origin).length M * (tilt_loc.sub ik.boomG.origin).length M)
            / (2 * ik.boom_len * ik.stick_len) > 1 ∨
      (ik.boom_len * ik.boom_len + ik.stick_len * ik.stick_len
              - (tilt_loc.sub ik.boomG.origin).length M * (tilt_loc.sub ik.boomG.origin).length M)
            / (2 * ik.boom_len * ik.stick_len) < -1) := by
    push_neg
    exact ⟨hcond.2.2, hcond.2.1⟩
  rw [if_neg e1, if_neg e2]
  refine ⟨?_, ?_, ?_⟩
  · split_ifs <;> rfl
  · split_ifs <;> rfl
  · split_ifs
    · right
      rfl
    · left
      rfl

theorem real_ik_fields :
    (excahauler_IK.init cmath_real).boomG.origin = ⟨0, 570 / 1000, 215 / 1000⟩ ∧
    (excahauler_IK.init cmath_real).boom_len
      = Real.sqrt (0 * 0 + -(312 / 1000) * -(312 / 1000) + 750 / 1000 * (750 / 1000)) ∧
    (excahauler_IK.init cmath_real).stick_len
      = Real.sqrt (0 * 0 + 735 / 1000 * (735 / 1000) + 12 / 1000 * (12 / 1000)) ∧
    (excahauler_IK.init cmath_real).boom_start
      = 180 / Real.pi * Complex.arg ⟨-(312 / 1000), 750 / 1000⟩ ∧
    (excahauler_IK.init cmath_real).stick_start
      = 180 / Real.pi * Complex.arg ⟨735 / 1000, 12 / 1000⟩ := by
  refine ⟨?_, ?_, ?_, ?_, ?_⟩ <;>
    simp only [excahauler_IK.init, link_geometry, vec3.length, frame_degrees, cmath_real]

theorem real_boom_len_ne_stick_len :
    (excahauler_IK.init cmath_real).boom_len ≠ (excahauler_IK.init cmath_real).stick_len := by
  rw [real_ik_fields.2.1, real_ik_fields.2.2.1]
  intro h
  have h2 := congrArg (fun t => t ^ 2) h
  simp only [] at h2
  rw [Real.sq_sqrt (by norm_num), Real.sq_sqrt (by norm_num)] at h2
  norm_num at h2

theorem round_trip_exact (joint : robot_joint_state ℝ) (tilt_loc : vec3 ℝ) (tool_deg : ℝ)
    (hplane : tilt_loc.x = 0)
    (hreach : ((excahauler_IK.init cmath_real).solve_tilt cmath_real joint tilt_loc
      tool_deg).1 = 1) :
    tilt_origin cmath_real
        ((excahauler_IK.init cmath_real).solve_tilt cmath_real joint tilt_loc tool_deg).2
      = tilt_loc ∧
    ∃ k : ℤ, tool_pitch cmath_real
        ((excahauler_IK.init cmath_real).solve_tilt cmath_real joint tilt_loc tool_deg).2
      = tool_deg + 360 * k := by
  obtain ⟨hcond, hboom, hstick, htilt⟩ :=
    solve_tilt_angles cmath_real (excahauler_IK.init cmath_real) joint tilt_loc tool_deg hreach
  obtain ⟨hO, hadef, hcdef, hbsdef, hssdef⟩ := real_ik_fields
  have ha := real_boom_len_pos
  have hc := real_stick_len_pos
  have hne := real_boom_len_ne_stick_len
  -- the target relative to the boom pivot, in polar form
  have hlen : (tilt_loc.sub (excahauler_IK.init cmath_real).boomG.origin).length cmath_real
      = Real.sqrt (0 * 0 + (tilt_loc.y - 570 / 1000) * (tilt_loc.y - 570 / 1000)
          + (tilt_loc.z - 215 / 1000) * (tilt_loc.z - 215 / 1000)) := by
    rw [hO]
    simp only [vec3.sub, vec3.length, cmath_real, hplane, sub_self]
  have hdeg : frame_degrees cmath_real
      (tilt_loc.sub (excahauler_IK.init cmath_real).boomG.origin)
      = 180 / Real.pi * Complex.arg ⟨tilt_loc.y - 570 / 1000, tilt_loc.z - 215 / 1000⟩ := by
    rw [hO]
    simp only [vec3.sub, frame_degrees, cmath_real]
  have hpa := polar_yz (-(312 / 1000)) (750 / 1000) (by rw [← hadef]; exact ha)
  have hpc := polar_yz (735 / 1000) (12 / 1000) (by rw [← hcdef]; exact hc)
  rw [← hadef] at hpa
  rw [← hcdef] at hpc
  rw [hlen] at hcond hboom hstick
  rw [hdeg, hbsdef] at hboom
  rw [hbsdef, hssdef] at hstick
  generalize (excahauler_IK.init cmath_real).boom_len = a at *
  generalize (excahauler_IK.init cmath_real).stick_len = c at *
  generalize ((excahauler_IK.init cmath_real).solve_tilt cmath_real joint tilt_loc
    tool_deg).2 = j at *
  have hb0 : 0 ≤ Real.sqrt (0 * 0 + (tilt_loc.y - 570 / 1000) * (tilt_loc.y - 570 / 1000)
      + (tilt_loc.z - 215 / 1000) * (tilt_loc.z - 215 / 1000)) := Real.sqrt_nonneg _
  have hpb := polar_yz (tilt_loc.y - 570 / 1000) (tilt_loc.z - 215 / 1000)
  generalize Real.sqrt (0 * 0 + (tilt_loc.y - 570 / 1000) * (tilt_loc.y - 570 / 1000)
      + (tilt_loc.z - 215 / 1000) * (tilt_loc.z - 215 / 1000)) = b at *
  have hb : 0 < b := by
    rcases hb0.lt_or_eq with h | h
    · exact h
    · exfalso
      have h2 := hcond.2.2
      rw [← h] at h2
      have hac : 0 < 2 * a * c := by positivity
      rw [div_le_iff₀ hac] at h2
      have : (a - c) ^ 2 ≤ 0 := by nlinarith
      have h3 : a - c = 0 := by
        have := sq_nonneg (a - c)
        exact pow_eq_zero_iff (two_ne_zero) |>.mp (le_antisymm ‹(a - c) ^ 2 ≤ 0› this)
      exact hne (by linarith)
  obtain ⟨hry, hrz⟩ := hpb hb
  generalize Complex.arg ⟨tilt_loc.y - 570 / 1000, tilt_loc.z - 215 / 1000⟩ = p at *
  generalize Complex.arg ⟨-(312 / 1000), 750 / 1000⟩ = bs at *
  generalize Complex.arg ⟨735 / 1000, 12 / 1000⟩ = ss at *
  have hpi := Real.pi_pos
  have hB : j.boom / (180 / Real.pi)
      = p + Real.arccos ((a * a + b * b - c * c) / (2 * a * b)) - bs := by
    rw [hboom]
    show (180 / Real.pi * p + 180 / Real.pi * Real.arccos _ - 180 / Real.pi * bs)
      / (180 / Real.pi) = _
    field_simp
    ring
  have hS : j.stick / (180 / Real.pi)
      = Real.arccos ((a * a + c * c - b * b) / (2 * a * c)) - ss + bs - Real.pi := by
    rw [hstick]
    show (180 / Real.pi * Real.arccos _ - 180 / Real.pi * ss + 180 / Real.pi * bs - 180)
      / (180 / Real.pi) = _
    field_simp
    ring
  have hid := two_bar_identity a b c p bs ss _ _ ha hb hc rfl rfl hcond.1 hcond.2
  constructor
  · rw [tilt_origin, link_coords_tilt_real, hB, hS, vec3_ext_iff]
    refine ⟨hplane.symm, ?_, ?_⟩
    · show (570 / 1000 : ℝ) + _ + _ = tilt_loc.y
      linear_combination hid.1 - hry
        + Real.cos (p + Real.arccos ((a * a + b * b - c * c) / (2 * a * b)) - bs) * hpa.1
        - Real.sin (p + Real.arccos ((a * a + b * b - c * c) / (2 * a * b)) - bs) * hpa.2
        + Real.cos (p + Real.arccos ((a * a + b * b - c * c) / (2 * a * b)) - bs
            + (Real.arccos ((a * a + c * c - b * b) / (2 * a * c)) - ss + bs - Real.pi)) * hpc.1
        - Real.sin (p + Real.arccos ((a * a + b * b - c * c) / (2 * a * b)) - bs
            + (Real.arccos ((a * a + c * c - b * b) / (2 * a * c)) - ss + bs - Real.pi)) * hpc.2
    · show (215 / 1000 : ℝ) + _ + _ = tilt_loc.z
      linear_combination hid.2 - hrz
        + Real.sin (p + Real.arccos ((a * a + b * b - c * c) / (2 * a * b)) - bs) * hpa.1
        + Real.cos (p + Real.arccos ((a * a + b * b - c * c) / (2 * a * b)) - bs) * hpa.2
        + Real.sin (p + Real.arccos ((a * a + b * b - c * c) / (2 * a * b)) - bs
            + (Real.arccos ((a * a + c * c - b * b) / (2 * a * c)) - ss + bs - Real.pi)) * hpc.1
        + Real.cos (p + Real.arccos ((a * a + b * b - c * c) / (2 * a * b)) - bs
            + (Real.arccos ((a * a + c * c - b * b) / (2 * a * c)) - ss + bs - Real.pi)) * hpc.2
  · rw [tool_pitch, link_coords_tilt_real]
    simp only [frame_degrees, cmath_real]
    obtain ⟨k, hk⟩ := arg_unit_vector (j.boom / (180 / Real.pi) + j.stick / (180 / Real.pi)
      + j.tilt / (180 / Real.pi))
    rw [hk]
    rcases htilt with ht | ht
    · refine ⟨k, ?_⟩
      rw [ht]
      field_simp
      ring
    · refine ⟨k + 1, ?_⟩
      rw [ht]
      push_cast
      field_simp
      ring

/-- C9: for every target in the YZ plane (x = 0) that `solve_tilt` reports
reachable and every `tool_deg`, forward kinematics over the link table on the
joint angles `solve_tilt` leaves puts the tilt link origin within 1e-3 m of
the target (in exact real arithmetic, on it) and gives a tool pitch within
0.1 degrees of `tool_deg` modulo 360 (in exact real arithmetic, equal to it
modulo 360). -/
theorem ik_round_trip (joint : robot_joint_state ℝ) (tilt_loc : vec3 ℝ) (tool_deg : ℝ)
    (hplane : tilt_loc.x = 0)
    (hreach : ((excahauler_IK.init cmath_real).solve_tilt cmath_real joint tilt_loc
      tool_deg).1 = 1) :
    vec3.length cmath_real
        ((tilt_origin cmath_real
          ((excahauler_IK.init cmath_real).solve_tilt cmath_real joint tilt_loc tool_deg).2).sub
          tilt_loc) ≤ 1 / 1000 ∧
    (∃ k : ℤ, |tool_pitch cmath_real
          ((excahauler_IK.init cmath_real).solve_tilt cmath_real joint tilt_loc tool_deg).2
        - tool_deg - 360 * k| ≤ 1 / 10) ∧
    tilt_origin cmath_real
        ((excahauler_IK.init cmath_real).solve_tilt cmath_real joint tilt_loc tool_deg).2
      = tilt_loc := by
  obtain ⟨horigin, k, hk⟩ := round_trip_exact joint tilt_loc tool_deg hplane hreach
  refine ⟨?_, ⟨k, ?_⟩, horigin⟩
  · rw [horigin]
    simp only [vec3.sub, vec3.length, cmath_real, sub_self, mul_zero, add_zero, Real.sqrt_zero]
    norm_num
  · rw [hk]
    have : tool_deg + 360 * (k : ℝ) - tool_deg - 360 * (k : ℝ) = 0 := by ring
    rw [this, abs_zero]
    norm_num

/-- C9 at the target straight ahead at full extension, which `solve_tilt`
reaches: forward kinematics on the solved angles lands within 1e-3 m of it. -/
theorem ik_round_trip_witness :
    vec3.length cmath_real
        ((tilt_origin cmath_real
          ((excahauler_IK.init cmath_real).solve_tilt cmath_real ⟨0, 0, 0, 0, 0, 0⟩
            full_extension_target 0).2).sub full_extension_target) ≤ 1 / 1000 :=
  (ik_round_trip ⟨0, 0, 0, 0, 0, 0⟩ full_extension_target 0 rfl
    (solve_tilt_full_extension_aux cmath_real (excahauler_IK.init cmath_real)
      ⟨0, 0, 0, 0, 0, 0⟩ full_extension_target 0 real_boom_len_pos real_stick_len_pos
      real_acos_one real_acos_neg_one full_extension_len).1).1

end fk_theorems

section mining_theorems

variable {F : Type} [LinearOrderedField F]

/-- C11: for every cut length, `split_progress` gives `(out, up) = (lead, 0)`
at progress 0 and `(lead, length)` at progress 1, with `lead = 0.05`, and
`out = 0` for every progress in [0.15, 0.97]. -/
theorem split_progress_endpoints (length : F) :
    split_progress 0 length = (5 / 100, 0) ∧
    split_progress 1 length = (5 / 100, length) ∧
    (∀ p : F, 15 / 100 ≤ p → p ≤ 97 / 100 → (split_progress p length).1 = 0) := by
  refine ⟨?_, ?_, ?_⟩
  · unfold split_progress
    norm_num
  · unfold split_progress
    norm_num
  · intro p h1 h2
    unfold split_progress
    simp only []
    rw [if_neg (not_lt.mpr h1), if_neg (not_lt.mpr (by linarith))]

theorem split_progress_up_mono_aux (length : F) (hlen : 0 ≤ length) (p1 p2 : F)
    (h : p1 ≤ p2) : (split_progress p1 length).2 ≤ (split_progress p2 length).2 := by
  unfold split_progress
  simp only []
  have h82 : (0 : F) < 1 - 15 / 100 - 3 / 100 := by norm_num
  by_cases a1 : p1 < 15 / 100
  · rw [if_pos a1]
    by_cases a2 : p2 < 15 / 100
    · rw [if_pos a2]
    · rw [if_neg a2]
      by_cases b2 : p2 > 1 - 3 / 100
      · rw [if_pos b2]
        simpa using hlen
      · rw [if_neg b2]
        simp only [zero_add]
        apply div_nonneg _ h82.le
        exact mul_nonneg hlen (by linarith)
  · rw [if_neg a1]
    have a2 : ¬ p2 < 15 / 100 := by
      intro h2
      exact a1 (lt_of_le_of_lt h h2)
    rw [if_neg a2]
    by_cases b1 : p1 > 1 - 3 / 100
    · have b2 : p2 > 1 - 3 / 100 := lt_of_lt_of_le b1 h
      rw [if_pos b1, if_pos b2]
    · rw [if_neg b1]
      by_cases b2 : p2 > 1 - 3 / 100
      · rw [if_pos b2]
        simp only [zero_add]
        rw [div_le_iff₀ h82]
        push_neg at b1
        nlinarith
      · rw [if_neg b2]
        simp only [zero_add]
        apply div_le_div_of_nonneg_right _ h82.le
        exact mul_le_mul_of_nonneg_left (by linarith) hlen

/-- C12, amended: for every cut length that is not negative, the up component
of `split_progress` is monotone non-decreasing in progress. -/
theorem split_progress_up_mono (length : F) (hlen : 0 ≤ length) (p1 p2 : F)
    (h : p1 ≤ p2) : (split_progress p1 length).2 ≤ (split_progress p2 length).2 :=
  split_progress_up_mono_aux length hlen p1 p2 h

end mining_theorems

/-- C12 fails as stated: with the cut length -1 the up component is 0 at
progress 0 and -1 at progress 1, so it decreases. -/
theorem split_progress_up_decreases :
    (split_progress (0 : ℚ) (-1)).2 = 0 ∧ (split_progress (1 : ℚ) (-1)).2 = -1 ∧
      ¬ ((split_progress (0 : ℚ) (-1)).2 ≤ (split_progress (1 : ℚ) (-1)).2) := by
  unfold split_progress
  norm_num

/-- The amended C12 at cut length 0.5, between progress 0.5 and 0.99. -/
theorem split_progress_up_mono_witness :
    (split_progress (1 / 2 : ℚ) (1 / 2)).2 ≤ (split_progress (99 / 100 : ℚ) (1 / 2)).2 :=
  split_progress_up_mono (1 / 2) (by norm_num) (1 / 2) (99 / 100) (by norm_num)

section heartbeat_theorems

variable {F : Type} [LinearOrderedField F] [FloorRing F]

theorem command_write_heartbeat (robot : robot_base F) (nano : nanoslot_exchange) :
    (arduino_command_write robot nano).backend_heartbeat = (nano.backend_heartbeat + 1) % 256 := by
  unfold arduino_command_write
  simp only []
  split <;> rfl

/-- C18, amended: every call of `arduino_command_write` increments the 8-bit
`backend_heartbeat` modulo 256: the value after the write differs from the
value before, and is one more (so strictly greater) except at 255, where it
wraps to 0. -/
theorem heartbeat_increments_mod_256 (robot : robot_base F) (nano : nanoslot_exchange)
    (hbyte : nano.backend_heartbeat < 256) :
    (arduino_command_write robot nano).backend_heartbeat = (nano.backend_heartbeat + 1) % 256 ∧
    (arduino_command_write robot nano).backend_heartbeat ≠ nano.backend_heartbeat ∧
    (nano.backend_heartbeat < 255 →
      (arduino_command_write robot nano).backend_heartbeat = nano.backend_heartbeat + 1) ∧
    (nano.backend_heartbeat = 255 → (arduino_command_write robot nano).backend_heartbeat = 0) := by
  rw [command_write_heartbeat]
  refine ⟨rfl, ?_, ?_, ?_⟩
  · omega
  · intro h
    omega
  · intro h
    omega

end heartbeat_theorems

/-- C18 fails as stated: a write that finds the heartbeat at 255 leaves it at
0, which is not greater. -/
theorem heartbeat_wraps_at_255 :
    nano_heartbeat_255.backend_heartbeat = 255 ∧
    (arduino_command_write dragging_robot nano_heartbeat_255).backend_heartbeat = 0 ∧
    ¬ ((arduino_command_write dragging_robot nano_heartbeat_255).backend_heartbeat
        > nano_heartbeat_255.backend_heartbeat) := by
  rw [command_write_heartbeat]
  decide

/-- The amended C18 at an exchange whose heartbeat is 0. -/
theorem heartbeat_increments_mod_256_witness :
    (arduino_command_write dragging_robot nano_zero).backend_heartbeat = 1 :=
  (heartbeat_increments_mod_256 dragging_robot nano_zero (by decide)).1

section ebox_theorems

variable {F : Type} [LinearOrderedField F]

theorem back_ebox_aux (M : cmath F) (coords : robot_joint_state F → hazard_points F)
    (joint : robot_joint_state F) (power : robot_power F)
    (hdrag : ¬ ((joint.fork < -10 ∨ joint.dump < -70) ∧
      (|power.left| > 1 / 100 ∨ |power.right| > 1 / 100)))
    (htilted : joint.boom > 40 ∧ joint.stick > 20)
    (hmove : power.boom < -(1 / 100) ∨ power.stick > 1 / 100) :
    joint_move_hazards M coords joint power = some "hitting back ebox" := by
  unfold joint_move_hazards
  simp only []
  rw [if_neg, if_pos]
  · simp only [Bool.and_eq_true, Bool.or_eq_true, decide_eq_true_eq]
    exact ⟨htilted, hmove⟩
  · intro h
    apply hdrag
    simpa only [Bool.and_eq_true, Bool.or_eq_true, decide_eq_true_eq] using h

/-- C19, amended: for every joint state and power vector that does not
trigger the scoop-dragging hazard, if boom > 40 and stick > 20 and the power
moves boom or stick farther into that region (boom power < -0.01 or stick
power > 0.01), `joint_move_hazards` returns the hazard "hitting back ebox". -/
theorem joint_move_hazards_back_ebox (M : cmath F)
    (coords : robot_joint_state F → hazard_points F)
    (joint : robot_joint_state F) (power : robot_power F)
    (hdrag : ¬ ((joint.fork < -10 ∨ joint.dump < -70) ∧
      (|power.left| > 1 / 100 ∨ |power.right| > 1 / 100)))
    (htilted : joint.boom > 40 ∧ joint.stick > 20)
    (hmove : power.boom < -(1 / 100) ∨ power.stick > 1 / 100) :
    joint_move_hazards M coords joint power = some "hitting back ebox" :=
  back_ebox_aux M coords joint power hdrag htilted hmove

end ebox_theorems

theorem ebox_robot_hazard :
    joint_move_hazards cmath_rat coords_origin ebox_robot.joint ebox_robot.power
      = some "hitting back ebox" :=
  back_ebox_aux cmath_rat coords_origin ebox_robot.joint ebox_robot.power
    (by norm_num [ebox_robot]) (by norm_num [ebox_robot]) (by norm_num [ebox_robot])

/-- C19 fails as stated: with boom at 45 and stick at 25 degrees and the boom
commanded back, the hazard returned is the string "hitting back ebox", not
"hitting back electronics box". -/
theorem back_hazard_string_differs :
    joint_move_hazards cmath_rat coords_origin ebox_robot.joint ebox_robot.power
      = some "hitting back ebox" ∧
    joint_move_hazards cmath_rat coords_origin ebox_robot.joint ebox_robot.power
      ≠ some "hitting back electronics box" := by
  rw [ebox_robot_hazard]
  exact ⟨rfl, by decide⟩

/-- The amended C19 at the same posture. -/
theorem joint_move_hazards_back_ebox_witness :
    joint_move_hazards cmath_rat coords_origin ebox_robot.joint ebox_robot.power
      = some "hitting back ebox" :=
  joint_move_hazards_back_ebox cmath_rat coords_origin ebox_robot.joint ebox_robot.power
    (by norm_num [ebox_robot]) (by norm_num [ebox_robot]) (by norm_num [ebox_robot])

section filter_theorems

variable {F : Type} [LinearOrderedField F]

theorem padded_three (ys : List F) :
    ∃ l0 l1 l2 rest, ys ++ [0, 0, 0] = l0 :: l1 :: l2 :: rest := by
  rcases ys with _ | ⟨y1, _ | ⟨y2, _ | ⟨y3, t⟩⟩⟩
  · exact ⟨0, 0, 0, [], rfl⟩
  · exact ⟨y1, 0, 0, [0], rfl⟩
  · exact ⟨y1, y2, 0, [0, 0], rfl⟩
  · exact ⟨y1, y2, y3, t ++ [0, 0, 0], by simp⟩

theorem filter_peak_eq (s0 s1 s2 : F) :
    (if s2 > (if s1 > (if s0 > (0 : F) then s0 else 0) then s1
        else (if s0 > (0 : F) then s0 else 0)) then s2
      else (if s1 > (if s0 > (0 : F) then s0 else 0) then s1
        else (if s0 > (0 : F) then s0 else 0)))
      = max 0 (max s0 (max s1 s2)) := by
  have e : ∀ p s : F, (if s > p then s else p) = max p s := by
    intro p s
    by_cases h : s > p
    · rw [if_pos h, max_eq_right h.le]
    · rw [if_neg h, max_eq_left (not_lt.mp h)]
  rw [e, e, e, max_assoc, max_assoc]

theorem filter_calls_state (xs : List F) :
    ∀ a b c : F, (xs.reverse ++ [0, 0, 0]).take 3 = [a, b, c] →
      filter_minerate_calls minerate_filter.init xs =
        (if xs.length % 3 = 0 then ⟨c, b, a, 0⟩
         else if xs.length % 3 = 1 then ⟨a, c, b, 1⟩ else ⟨b, a, c, 2⟩) := by
  induction xs using List.reverseRecOn with
  | nil =>
    intro a b c h
    simp only [List.reverse_nil, List.nil_append, List.take, List.cons.injEq, and_true] at h
    obtain ⟨ha, hb, hc⟩ := h
    subst ha hb hc
    rfl
  | append_singleton xs x ih =>
    intro a b c h
    obtain ⟨l0, l1, l2, rest, hl⟩ := padded_three xs.reverse
    have ih2 := ih l0 l1 l2 (by rw [hl]; rfl)
    rw [List.reverse_append, List.reverse_singleton, List.singleton_append, List.cons_append,
      hl] at h
    simp only [List.take, List.cons.injEq, and_true] at h
    obtain ⟨ha, hb, hc⟩ := h
    subst ha hb hc
    unfold filter_minerate_calls at ih2 ⊢
    rw [List.foldl_append, ih2]
    simp only [List.foldl_cons, List.foldl_nil, List.length_append, List.length_singleton]
    have hmod : xs.length % 3 = 0 ∨ xs.length % 3 = 1 ∨ xs.length % 3 = 2 := by omega
    rcases hmod with h0 | h1 | h2
    · have e : (xs.length + 1) % 3 = 1 := by omega
      simp [h0, e, filter_minerate]
    · have e : (xs.length + 1) % 3 = 2 := by omega
      simp [h1, e, filter_minerate]
    · have e : (xs.length + 1) % 3 = 0 := by omega
      simp [h2, e, filter_minerate]

theorem filter_minerate_peak_aux (xs : List F) (a b c x : F)
    (h : (xs.reverse ++ [0, 0, 0]).take 3 = [a, b, c]) :
    (filter_minerate (filter_minerate_calls minerate_filter.init xs) x).2
      = max 0 (max b (max a x)) := by
  rw [filter_calls_state xs a b c h]
  have hmod : xs.length % 3 = 0 ∨ xs.length % 3 = 1 ∨ xs.length % 3 = 2 := by omega
  rcases hmod with h0 | h1 | h2
  · simp only [h0, if_true, filter_minerate]
    rw [filter_peak_eq]
    congr 1
    rw [max_comm x, max_comm b a, max_assoc, max_comm a, max_assoc, max_comm x a]
  · simp only [h1, if_true, filter_minerate, one_ne_zero, if_false]
    rw [filter_peak_eq]
    congr 1
    rw [max_comm x b, ← max_assoc, max_comm a b, max_assoc]
  · simp only [h2, filter_minerate, OfNat.ofNat_ne_zero, OfNat.ofNat_ne_one, if_false]
    rw [filter_peak_eq]

/-- C20, amended: each call of `filter_minerate` returns the larger of 0 and
the peak of the three most recent samples, the one just supplied included
(on the first and second call, of the samples supplied so far); so it
returns the peak of the three most recent samples whenever one of them is
not negative. -/
theorem filter_minerate_peak (pre : List F) (c b x : F) :
    (filter_minerate minerate_filter.init x).2 = max 0 x ∧
    (filter_minerate (filter_minerate_calls minerate_filter.init [b]) x).2
      = max 0 (max b x) ∧
    (filter_minerate (filter_minerate_calls minerate_filter.init (pre ++ [c, b])) x).2
      = max 0 (max c (max b x)) ∧
    (0 ≤ c ∨ 0 ≤ b ∨ 0 ≤ x →
      (filter_minerate (filter_minerate_calls minerate_filter.init (pre ++ [c, b])) x).2
        = max c (max b x)) := by
  have h3 : (filter_minerate (filter_minerate_calls minerate_filter.init (pre ++ [c, b])) x).2
      = max 0 (max c (max b x)) := by
    obtain ⟨l0, l1, l2, rest, hl⟩ := padded_three pre.reverse
    apply filter_minerate_peak_aux (pre ++ [c, b]) b c l0 x
    rw [List.reverse_append]
    simp only [List.reverse_cons, List.reverse_nil, List.nil_append, List.cons_append,
      List.append_assoc, hl]
    rfl
  refine ⟨?_, ?_, h3, ?_⟩
  · have h := filter_minerate_peak_aux [] 0 0 0 x rfl
    change (filter_minerate minerate_filter.init x).2 = _ at h
    rw [h, ← max_assoc, max_self, ← max_assoc, max_self]
  · have h := filter_minerate_peak_aux [b] b 0 0 x rfl
    rw [h, ← max_assoc, max_self]
  · intro hpos
    rw [h3]
    apply max_eq_right
    rcases hpos with h | h | h
    · exact le_trans h (le_max_left _ _)
    · exact le_trans h (le_trans (le_max_left _ _) (le_max_right _ _))
    · exact le_trans h (le_trans (le_max_right _ _) (le_max_right _ _))

end filter_theorems

/-- C20 fails as stated: after the samples -1, -1, -1 the third call returns
0, while the peak of the three most recent samples is -1. -/
theorem filter_minerate_negative_samples :
    (filter_minerate (filter_minerate_calls minerate_filter.init [(-1 : ℚ), -1]) (-1)).2 = 0 ∧
    max (-1 : ℚ) (max (-1) (-1)) = -1 ∧
    (filter_minerate (filter_minerate_calls minerate_filter.init [(-1 : ℚ), -1]) (-1)).2
      ≠ max (-1 : ℚ) (max (-1) (-1)) := by
  have h := filter_minerate_peak_aux [(-1 : ℚ), -1] (-1) (-1) 0 (-1) rfl
  rw [h]
  norm_num

section autonomy_theorems

variable {F : Type} [LinearOrderedField F]

/-- C17: in state `weigh` at sub-step 2, once three seconds have passed in
the state, the call stores `-(load_SL + load_SR)` in `accum.scoop`, clears
`read_L` and advances the sub-step to 3. -/
theorem weigh_records_scoop_total (M : cmath F) (X : backend_externals F)
    (m : robot_manager_t F)
    (hstate : m.robot.state = robot_state_t.state_weigh) (hsub : m.substep = 2)
    (htime : 3 ≤ m.cur_time - m.state_start_time) :
    (autonomous_state M X m).accum.scoop = -(m.sensor.load_SL + m.sensor.load_SR) ∧
    (autonomous_state M X m).robot.power.read_L = 0 ∧
    (autonomous_state M X m).substep = 3 ∧
    (autonomous_state M X m).robot.state = robot_state_t.state_weigh := by
  have ht : ¬ (m.cur_time - m.state_start_time < 3) := not_lt.mpr htime
  simp only [autonomous_state, robot_manager_t.set_power, hstate, autonomous_state_weigh, hsub]
  simp only [ht, if_false]
  split_ifs <;> simp [set_drive_powers, robot_manager_t.set_power]

end autonomy_theorems

/-- C14 fails at the mining backend with `stall_backoff` at 0.3 and a
stalled mining head: the tick ends in state `STOP` with `stall_backoff` reset
to 0.12, and the grinder tool power it leaves in the power vector is 0.5,
which the command path writes to the mining head as 50 percent. -/
theorem stall_stop_keeps_tool_power :
    (backend_tick cmath_rat externals_reachable stall_limit_manager stall_input).robot.state
      = robot_state_t.state_STOP ∧
    (backend_tick cmath_rat externals_reachable stall_limit_manager stall_input).stall_backoff
      = 12 / 100 ∧
    (backend_tick cmath_rat externals_reachable stall_limit_manager
      stall_input).robot.power.grinder_tool = 1 / 2 ∧
    (update_command_path cmath_rat coords_origin
      (backend_tick cmath_rat externals_reachable stall_limit_manager stall_input).robot
      nano_zero nano_zero).2.2.slot_C0_command.payload = ⟨50⟩ := by
  have hrun : (backend_tick cmath_rat externals_reachable stall_limit_manager stall_input).robot
      = { state := robot_state_t.state_STOP, joint := mine_joint_base,
          power := ⟨0, 0, 0, 0, 0, 0, 0, 0, attached_t.attach_grinder (1 / 2)⟩ } := by
    have hge : ¬ (robot_state_t.state_mine.toCtorIdx
        < robot_state_t.state_autonomy.toCtorIdx) := by decide
    simp [backend_tick, update_dispatch, autonomous_state, autonomous_state_mine,
      stall_limit_manager, mining_manager, stall_input, stalled_sensor, externals_reachable,
      robot_state_t.toNat, robot_manager_t.set_power, robot_power.stop,
      robot_power.set_grinder_tool, enter_state, move_arm, move_single_joint, limit,
      mine_joint_base, hge]
    norm_num
  refine ⟨?_, ?_, ?_, ?_⟩
  · rw [hrun]
  · have hge : ¬ (robot_state_t.state_mine.toCtorIdx
        < robot_state_t.state_autonomy.toCtorIdx) := by decide
    simp [backend_tick, update_dispatch, autonomous_state, autonomous_state_mine,
      stall_limit_manager, mining_manager, stall_input, stalled_sensor, externals_reachable,
      robot_state_t.toNat, robot_manager_t.set_power, robot_power.stop,
      robot_power.set_grinder_tool, enter_state, move_arm, move_single_joint, limit,
      mine_joint_base, hge]
    norm_num
  · rw [hrun]
    rfl
  · rw [hrun]
    simp [update_command_path, nano_zero, arduino_command_write,
      robot_power.attached_arm, robot_power.attached_grinder, robot_power.grinder_tool,
      motor_scale, c_trunc, to_int8]
    norm_num

/-- C15 fails at the mining backend with the arm at `mine_joint_base`, the
mining head cutting freely and `mine_progress` at 0.999: `mine_plan` returns
-1 and leaves the target at `mine_joint_base`, the state is set to `STOP`,
and the rest of the branch then finds the arm at its target, advances the
progress past 1 and ends the call in state `mine_finish`. -/
theorem mine_plan_negative_ends_in_mine_finish :
    last_cut_manager.robot.state = robot_state_t.state_mine ∧
    (∀ a b c j, (externals_unreachable.mine_plan a b c j).1 = -1) ∧
    (autonomous_state cmath_rat externals_unreachable last_cut_manager).robot.state
      = robot_state_t.state_mine_finish ∧
    (autonomous_state cmath_rat externals_unreachable last_cut_manager).last_state
      = robot_state_t.state_STOP ∧
    (autonomous_state cmath_rat externals_unreachable last_cut_manager).mine_progress = 0 := by
  refine ⟨rfl, fun _ _ _ _ => rfl, ?_, ?_, ?_⟩
  · simp [autonomous_state, autonomous_state_mine, last_cut_manager, mining_manager,
      cutting_sensor, externals_unreachable, robot_manager_t.set_power, robot_power.stop,
      robot_power.set_grinder_tool, enter_state, move_arm, move_single_joint, limit,
      mine_joint_base]
    norm_num
  · simp [autonomous_state, autonomous_state_mine, last_cut_manager, mining_manager,
      cutting_sensor, externals_unreachable, robot_manager_t.set_power, robot_power.stop,
      robot_power.set_grinder_tool, enter_state, move_arm, move_single_joint, limit,
      mine_joint_base]
    norm_num
  · simp [autonomous_state, autonomous_state_mine, last_cut_manager, mining_manager,
      cutting_sensor, externals_unreachable, robot_manager_t.set_power, robot_power.stop,
      robot_power.set_grinder_tool, enter_state, move_arm, move_single_joint, limit,
      mine_joint_base]
    norm_num

/-- C17 at the weighing backend: with the scoop load cells at -2 and -3 kgf,
four seconds into sub-step 2, the stored `accum.scoop` is 5. -/
theorem weigh_records_scoop_total_witness :
    weigh_manager.sensor.load_SL = -2 ∧ weigh_manager.sensor.load_SR = -3 ∧
    (autonomous_state cmath_rat externals_reachable weigh_manager).accum.scoop = 5 ∧
    (autonomous_state cmath_rat externals_reachable weigh_manager).robot.power.read_L = 0 ∧
    (autonomous_state cmath_rat externals_reachable weigh_manager).substep = 3 := by
  have h := weigh_records_scoop_total cmath_rat externals_reachable weigh_manager rfl rfl
    (by norm_num [weigh_manager, mining_manager])
  refine ⟨rfl, rfl, ?_, h.2.1, h.2.2.1⟩
  rw [h.1]
  norm_num [weigh_manager, weigh_sensor]

section tilt_theorems

variable {F : Type} [LinearOrderedField F]

/-- The angles `solve_tilt` leaves behind when it returns 1. -/
theorem solve_tilt_tilt_aux (M : cmath F) (ik : excahauler_IK F)
    (joint : robot_joint_state F) (tilt_loc : vec3 F) (tool_deg : F)
    (h : (ik.solve_tilt M joint tilt_loc tool_deg).1 = 1) :
    (∃ tb sb : F,
      (∃ x, tb = M.RAD2DEG * M.acos x) ∧ (∃ x, sb = M.RAD2DEG * M.acos x) ∧
      (ik.solve_tilt M joint tilt_loc tool_deg).2.boom
        = frame_degrees M (tilt_loc.sub ik.boomG.origin) + tb - ik.boom_start ∧
      (ik.solve_tilt M joint tilt_loc tool_deg).2.stick
        = sb - ik.stick_start + ik.boom_start - 180) ∧
    (ik.solve_tilt M joint tilt_loc tool_deg).2.tilt =
      if tool_deg - (ik.solve_tilt M joint tilt_loc tool_deg).2.stick
          - (ik.solve_tilt M joint tilt_loc tool_deg).2.boom < -180
      then tool_deg - (ik.solve_tilt M joint tilt_loc tool_deg).2.stick
          - (ik.solve_tilt M joint tilt_loc tool_deg).2.boom + 360
      else tool_deg - (ik.solve_tilt M joint tilt_loc tool_deg).2.stick
          - (ik.solve_tilt M joint tilt_loc tool_deg).2.boom := by
  unfold excahauler_IK.solve_tilt at h ⊢
  simp only [] at h ⊢
  split_ifs at h with h1 h2 h3
  · simp at h
  · simp at h
  · simp only [if_neg h1, if_neg h2, if_pos h3]
    exact ⟨⟨_, _, ⟨_, rfl⟩, ⟨_, rfl⟩, rfl, rfl⟩, trivial⟩
  · simp only [if_neg h1, if_neg h2, if_neg h3]
    exact ⟨⟨_, _, ⟨_, rfl⟩, ⟨_, rfl⟩, rfl, rfl⟩, trivial⟩

/-- C22, amended: for every reachable target, `solve_tilt` sets `angle.tilt`
to `tool_deg - angle.boom - angle.stick`, plus 360 when that difference is
below -180 and unchanged otherwise.  With a math library whose angles do not
exceed 180 degrees, a non-negative `stick_start` and `tool_deg >= -180`, the
result is at least -180; nothing is subtracted, so it is above +180 exactly
when the difference is. -/
theorem solve_tilt_wraps_upward_only (M : cmath F) (ik : excahauler_IK F)
    (joint : robot_joint_state F) (tilt_loc : vec3 F) (tool_deg : F)
    (h : (ik.solve_tilt M joint tilt_loc tool_deg).1 = 1)
    (htool : -180 ≤ tool_deg)
    (hacos : ∀ x, M.RAD2DEG * M.acos x ≤ 180)
    (hatan : ∀ z y, M.RAD2DEG * M.atan2 z y ≤ 180)
    (hstart : 0 ≤ ik.stick_start) :
    (tool_deg - (ik.solve_tilt M joint tilt_loc tool_deg).2.boom
        - (ik.solve_tilt M joint tilt_loc tool_deg).2.stick < -180 →
      (ik.solve_tilt M joint tilt_loc tool_deg).2.tilt
        = tool_deg - (ik.solve_tilt M joint tilt_loc tool_deg).2.boom
          - (ik.solve_tilt M joint tilt_loc tool_deg).2.stick + 360) ∧
    (-180 ≤ tool_deg - (ik.solve_tilt M joint tilt_loc tool_deg).2.boom
        - (ik.solve_tilt M joint tilt_loc tool_deg).2.stick →
      (ik.solve_tilt M joint tilt_loc tool_deg).2.tilt
        = tool_deg - (ik.solve_tilt M joint tilt_loc tool_deg).2.boom
          - (ik.solve_tilt M joint tilt_loc tool_deg).2.stick) ∧
    -180 ≤ (ik.solve_tilt M joint tilt_loc tool_deg).2.tilt ∧
    (180 < (ik.solve_tilt M joint tilt_loc tool_deg).2.tilt ↔
      180 < tool_deg - (ik.solve_tilt M joint tilt_loc tool_deg).2.boom
        - (ik.solve_tilt M joint tilt_loc tool_deg).2.stick) := by
  obtain ⟨⟨tb, sb, ⟨x1, htb⟩, ⟨x2, hsb⟩, hboom, hstick⟩, htilt⟩ :=
    solve_tilt_tilt_aux M ik joint tilt_loc tool_deg h
  have h1 : tb ≤ 180 := htb ▸ hacos x1
  have h2 : sb ≤ 180 := hsb ▸ hacos x2
  have h3 : frame_degrees M (tilt_loc.sub ik.boomG.origin) ≤ 180 := hatan _ _
  generalize (ik.solve_tilt M joint tilt_loc tool_deg).2.tilt = t at htilt ⊢
  generalize (ik.solve_tilt M joint tilt_loc tool_deg).2.boom = b at htilt hboom ⊢
  generalize (ik.solve_tilt M joint tilt_loc tool_deg).2.stick = s at htilt hstick ⊢
  refine ⟨?_, ?_, ?_, ?_⟩
  · intro hlt
    rw [htilt, if_pos (by linarith)]
    ring
  · intro hge
    rw [htilt, if_neg (by linarith)]
    ring
  · rw [htilt]
    split_ifs with hc
    · linarith
    · linarith
  · rw [htilt]
    split_ifs with hc
    · constructor
      · intro _
        linarith
      · intro _
        linarith
    · constructor
      · intro _
        linarith
      · intro _
        linarith

end tilt_theorems

/-- C22 fails as stated: for the reachable target straight ahead at full
extension and `tool_deg = 180`, `solve_tilt` returns 1 and leaves
`angle.tilt` above +180 degrees. -/
theorem solve_tilt_tilt_above_180 :
    ((excahauler_IK.init cmath_real).solve_tilt cmath_real ⟨0, 0, 0, 0, 0, 0⟩
        full_extension_target 180).1 = 1 ∧
    180 < ((excahauler_IK.init cmath_real).solve_tilt cmath_real ⟨0, 0, 0, 0, 0, 0⟩
        full_extension_target 180).2.tilt := by
  have h := solve_tilt_full_extension_aux cmath_real (excahauler_IK.init cmath_real)
    ⟨0, 0, 0, 0, 0, 0⟩ full_extension_target 180 real_boom_len_pos real_stick_len_pos
    real_acos_one real_acos_neg_one full_extension_len
  obtain ⟨_, htilt⟩ := solve_tilt_tilt_aux cmath_real (excahauler_IK.init cmath_real)
    ⟨0, 0, 0, 0, 0, 0⟩ full_extension_target 180 h.1
  refine ⟨h.1, ?_⟩
  rw [htilt, h.2.1, h.2.2.1, full_extension_tilt_deg]
  have hs := real_stick_start_pos
  split_ifs with hc
  · linarith
  · linarith

theorem real_acos_le_180 (x : ℝ) : cmath_real.RAD2DEG * cmath_real.acos x ≤ 180 := by
  simp only [cmath_real]
  have h1 : Real.arccos x ≤ Real.pi := Real.arccos_le_pi x
  have h2 : 180 / Real.pi * Real.arccos x ≤ 180 / Real.pi * Real.pi :=
    mul_le_mul_of_nonneg_left h1 (div_nonneg (by norm_num) Real.pi_pos.le)
  rwa [div_mul_cancel₀ _ Real.pi_ne_zero] at h2

theorem real_atan2_le_180 (z y : ℝ) : cmath_real.RAD2DEG * cmath_real.atan2 z y ≤ 180 := by
  simp only [cmath_real]
  have h1 : Complex.arg ⟨y, z⟩ ≤ Real.pi := Complex.arg_le_pi _
  have h2 : 180 / Real.pi * Complex.arg ⟨y, z⟩ ≤ 180 / Real.pi * Real.pi :=
    mul_le_mul_of_nonneg_left h1 (div_nonneg (by norm_num) Real.pi_pos.le)
  rwa [div_mul_cancel₀ _ Real.pi_ne_zero] at h2

/-- The amended C22 at the robot's geometry over the reals, for the target at
full extension and `tool_deg = 180`: the tilt angle is at least -180. -/
theorem solve_tilt_wraps_upward_only_witness :
    -180 ≤ ((excahauler_IK.init cmath_real).solve_tilt cmath_real ⟨0, 0, 0, 0, 0, 0⟩
        full_extension_target 180).2.tilt :=
  (solve_tilt_wraps_upward_only cmath_real (excahauler_IK.init cmath_real)
    ⟨0, 0, 0, 0, 0, 0⟩ full_extension_target 180
    (solve_tilt_full_extension_aux cmath_real (excahauler_IK.init cmath_real)
      ⟨0, 0, 0, 0, 0, 0⟩ full_extension_target 180 real_boom_len_pos real_stick_len_pos
      real_acos_one real_acos_neg_one full_extension_len).1
    (by norm_num) real_acos_le_180 real_atan2_le_180 real_stick_start_pos.le).2.2.1

section stop_theorems

variable {F : Type} [LinearOrderedField F]

/-- C26: whatever the joint state and the geometry, `joint_move_hazards`
reports no hazard when every commanded power (left, right, fork, dump, boom,
stick, tilt and the grinder tool power) is at most 0.01 in magnitude. -/
theorem joint_move_hazards_none_of_small_power (M : cmath F)
    (coords : robot_joint_state F → hazard_points F)
    (joint : robot_joint_state F) (power : robot_power F)
    (hleft : |power.left| ≤ 1 / 100) (hright : |power.right| ≤ 1 / 100)
    (hfork : |power.fork| ≤ 1 / 100) (hdump : |power.dump| ≤ 1 / 100)
    (hboom : |power.boom| ≤ 1 / 100) (hstick : |power.stick| ≤ 1 / 100)
    (htilt : |power.tilt| ≤ 1 / 100) (htool : |power.grinder_tool| ≤ 1 / 100) :
    joint_move_hazards M coords joint power = none := by
  have l1 := abs_le.mp hleft
  have l2 := abs_le.mp hright
  have l3 := abs_le.mp hfork
  have l4 := abs_le.mp hdump
  have l5 := abs_le.mp hboom
  have l6 := abs_le.mp hstick
  have l7 := abs_le.mp htilt
  have n1 : ¬ (1 / 100 < |power.left|) := not_lt.mpr hleft
  have n2 : ¬ (1 / 100 < |power.right|) := not_lt.mpr hright
  have n3 : ¬ (1 / 100 < |power.fork|) := not_lt.mpr hfork
  have n4 : ¬ (1 / 100 < |power.dump|) := not_lt.mpr hdump
  have n5 : ¬ (1 / 100 < |power.boom|) := not_lt.mpr hboom
  have n7 : ¬ (1 / 100 < |power.tilt|) := not_lt.mpr htilt
  have n8 : ¬ (1 / 100 < |power.grinder_tool|) := not_lt.mpr htool
  have p3 : ¬ (1 / 100 < power.fork) := not_lt.mpr l3.2
  have p4 : ¬ (1 / 100 < power.dump) := not_lt.mpr l4.2
  have p5 : ¬ (1 / 100 < power.boom) := not_lt.mpr l5.2
  have p6 : ¬ (1 / 100 < power.stick) := not_lt.mpr l6.2
  have p7 : ¬ (1 / 100 < power.tilt) := not_lt.mpr l7.2
  have m3 : ¬ (power.fork < -(1 / 100)) := not_lt.mpr l3.1
  have m4 : ¬ (power.dump < -(1 / 100)) := not_lt.mpr l4.1
  have m5 : ¬ (power.boom < -(1 / 100)) := not_lt.mpr l5.1
  have m6 : ¬ (power.stick < -(1 / 100)) := not_lt.mpr l6.1
  have m7 : ¬ (power.tilt < -(1 / 100)) := not_lt.mpr l7.1
  simp only [joint_move_hazards, hazard_when, hazard_block, first_hazard, gt_iff_lt,
    n1, n2, n3, n4, n5, n7, n8, p3, p4, p5, p6, p7, m3, m4, m5, m6, m7,
    decide_False, Bool.or_false, Bool.and_false, Bool.false_eq_true, if_false, and_false,
    ite_self]

end stop_theorems

/-- C26 at a stop command: scoop down, boom and stick tilted back, every
power zero. -/
theorem joint_move_hazards_none_of_small_power_witness :
    joint_move_hazards cmath_rat coords_origin ⟨-30, -80, 45, 25, 0, 0⟩ stopped_power = none :=
  joint_move_hazards_none_of_small_power cmath_rat coords_origin ⟨-30, -80, 45, 25, 0, 0⟩
    stopped_power (by norm_num [stopped_power]) (by norm_num [stopped_power])
    (by norm_num [stopped_power]) (by norm_num [stopped_power]) (by norm_num [stopped_power])
    (by norm_num [stopped_power]) (by norm_num [stopped_power])
    (by norm_num [stopped_power, robot_power.grinder_tool])

section stall_state_theorems

variable {F : Type} [LinearOrderedField F]

/-- C29: one call of `autonomous_state` in state `mine_stall` ends in state
`mine` whatever the time in the state and the stall sensor, and the boom
power it leaves is -1 exactly when the stall sensor is set and less than one
second has passed in the state. -/
theorem mine_stall_returns_to_mine (M : cmath F) (X : backend_externals F)
    (m : robot_manager_t F)
    (hstate : m.robot.state = robot_state_t.state_mine_stall) :
    (autonomous_state M X m).robot.state = robot_state_t.state_mine ∧
    ((autonomous_state M X m).robot.power.boom = -1 ↔
      m.sensor.Mstall = true ∧ m.cur_time - m.state_start_time < 1) := by
  simp only [autonomous_state, robot_manager_t.set_power, hstate]
  by_cases ht : m.cur_time - m.state_start_time < 1
  · by_cases hs : m.sensor.Mstall = true
    · simp [ht, hs, enter_state, set_drive_powers, robot_manager_t.set_power]
      split_ifs <;> simp
    · simp [ht, hs, enter_state, set_drive_powers, robot_manager_t.set_power, robot_power.stop]
      split_ifs <;> simp
  · by_cases hs : m.sensor.Mstall = true
    · simp [ht, hs, enter_state, set_drive_powers, robot_manager_t.set_power, robot_power.stop]
      split_ifs <;> simp
    · simp [ht, hs, enter_state, set_drive_powers, robot_manager_t.set_power, robot_power.stop]
      split_ifs <;> simp

end stall_state_theorems

/-- C29 two seconds into state `mine_stall`: the call ends in state `mine`,
not `STOP`. -/
theorem mine_stall_returns_to_mine_witness :
    (autonomous_state cmath_rat externals_reachable stall_state_manager).robot.state
      = robot_state_t.state_mine :=
  (mine_stall_returns_to_mine cmath_rat externals_reachable stall_state_manager rfl).1

section distance_theorems

variable {F : Type} [LinearOrderedField F]

end distance_theorems

section angle_theorems

variable {F : Type} [LinearOrderedField F]

end angle_theorems

section advance_theorems

variable {F : Type} [LinearOrderedField F]

theorem autonomous_state_mine_aux (M : cmath F) (X : backend_externals F)
    (m : robot_manager_t F) (hstate : m.robot.state = robot_state_t.state_mine) :
    autonomous_state M X m =
      (let r := autonomous_state_mine X (m.set_power m.robot.power.stop)
       if r.nodrive = true then set_drive_powers r 0 0 else r) := by
  simp [autonomous_state, hstate, robot_manager_t.set_power]

theorem set_drive_powers_keeps_aux (m : robot_manager_t F) (a b : F) :
    (set_drive_powers m a b).robot.state = m.robot.state ∧
    (set_drive_powers m a b).stall_backoff = m.stall_backoff ∧
    (set_drive_powers m a b).mine_progress = m.mine_progress ∧
    (set_drive_powers m a b).robot.power.grinder_tool = m.robot.power.grinder_tool := by
  simp [set_drive_powers, robot_manager_t.set_power, robot_power.grinder_tool]

theorem enter_state_keeps_aux (m : robot_manager_t F) (st : robot_state_t) :
    (enter_state m st).stall_backoff = m.stall_backoff ∧
    (enter_state m st).mine_progress = m.mine_progress ∧
    (enter_state m st).nodrive = m.nodrive ∧
    (enter_state m st).robot.joint = m.robot.joint ∧
    (enter_state m st).robot.power = m.robot.power ∧
    (enter_state m st).robot.state = st := by
  unfold enter_state
  split_ifs <;> exact ⟨rfl, rfl, rfl, rfl, rfl, rfl⟩

theorem move_arm_keeps_aux (m : robot_manager_t F) (j : robot_joint_state F) (sp : F) :
    (move_arm m j sp).1.stall_backoff = m.stall_backoff ∧
    (move_arm m j sp).1.mine_progress = m.mine_progress ∧
    (move_arm m j sp).1.nodrive = m.nodrive ∧
    (move_arm m j sp).1.robot.state = m.robot.state ∧
    (move_arm m j sp).1.robot.power.attached = m.robot.power.attached :=
  ⟨rfl, rfl, rfl, rfl, rfl⟩

theorem move_scoop_keeps_aux (m : robot_manager_t F) (j : robot_joint_state F) :
    (move_scoop m j).1.stall_backoff = m.stall_backoff ∧
    (move_scoop m j).1.mine_progress = m.mine_progress ∧
    (move_scoop m j).1.nodrive = m.nodrive ∧
    (move_scoop m j).1.robot.state = m.robot.state :=
  ⟨rfl, rfl, rfl, rfl⟩

/-- The new `stall_backoff` of a tick of the mine branch with `advance` set
and `backoff` clear. -/
theorem mine_advance_backoff_aux (X : backend_externals F) (m : robot_manager_t F)
    (hrate : ¬ (m.sensor.minerate < 50)) (hload : ¬ (m.sensor.load_TR < -10)) :
    (autonomous_state_mine X m).stall_backoff
      = max 0 (min (1 / 10) m.stall_backoff * (96 / 100) - 5 / 1000 * (1 / 2)) := by
  simp only [autonomous_state_mine,
    apply_ite robot_manager_t.stall_backoff, (enter_state_keeps_aux _ _).1,
    (move_arm_keeps_aux _ _ _).1, robot_manager_t.set_power, ite_self, hrate, hload,
    if_false, if_true, Bool.false_eq_true]
  rcases le_total 0 ((1 / 10 ⊓ m.stall_backoff) * (96 / 100) - 5 / 1000 * (1 / 2)) with h | h
  · rw [max_eq_right h, if_neg (not_lt.mpr h)]
  · rw [max_eq_left h]
    split_ifs with h2
    · rfl
    · exact le_antisymm h (not_lt.mp h2)

/-- What one call of the mine branch leaves behind, in terms of the value
`plan` returned by the planner and of whether `move_arm` reports arrival. -/
theorem mine_branch_summary_aux (X : backend_externals F) (m : robot_manager_t F) :
    ∃ (plan : Int × robot_joint_state F) (arrived : Bool),
      (∃ a b c, plan = X.mine_plan a b c mine_joint_base) ∧
      (arrived = true ↔
        |plan.2.boom - m.robot.joint.boom| < 15 / 10 ∧
        |plan.2.stick - m.robot.joint.stick| < 15 / 10 ∧
        |plan.2.tilt - m.robot.joint.tilt| < 15 / 10) ∧
      (autonomous_state_mine X m).nodrive = m.nodrive ∧
      (autonomous_state_mine X m).mine_progress =
        (if arrived = true then
          (if (if (¬ m.sensor.load_TR < -10 ∧ ¬ m.sensor.minerate < 50 ∧
                    ¬ (autonomous_state_mine X m).stall_backoff > 0)
                then m.mine_progress + 4 / 1000 * (1 / 2) else m.mine_progress) ≥ 1
            then 0
            else (if (¬ m.sensor.load_TR < -10 ∧ ¬ m.sensor.minerate < 50 ∧
                    ¬ (autonomous_state_mine X m).stall_backoff > 0)
                then m.mine_progress + 4 / 1000 * (1 / 2) else m.mine_progress))
        else m.mine_progress) := by
  unfold autonomous_state_mine
  lift_lets
  intro m1 aggro advance0 backoff0 backoff1 advance1 advance2 backoff2 cap m8 maxb m7 m6 m5
    advance3 mj ou out up depth plan m4 mj2 r m3 m2 m1' m0
  have h5 : m5.mine_progress = m.mine_progress ∧ m5.nodrive = m.nodrive ∧
      m5.robot.joint = m.robot.joint := by
    simp only [m5, m6, m7, m8, m1, apply_ite robot_manager_t.mine_progress,
      apply_ite robot_manager_t.nodrive, apply_ite robot_manager_t.robot,
      apply_ite robot_base.joint,
      (enter_state_keeps_aux _ _).2.1, (enter_state_keeps_aux _ _).2.2.1,
      (enter_state_keeps_aux _ _).2.2.2.1, robot_manager_t.set_power, ite_self, and_self]
  have h4 : m4.mine_progress = m.mine_progress ∧ m4.nodrive = m.nodrive ∧
      m4.robot.joint = m.robot.joint ∧ m4.stall_backoff = m5.stall_backoff := by
    simp only [m4, apply_ite robot_manager_t.mine_progress,
      apply_ite robot_manager_t.nodrive, apply_ite robot_manager_t.robot,
      apply_ite robot_base.joint, apply_ite robot_manager_t.stall_backoff,
      (enter_state_keeps_aux _ _).1,
      (enter_state_keeps_aux _ _).2.1, (enter_state_keeps_aux _ _).2.2.1,
      (enter_state_keeps_aux _ _).2.2.2.1, ite_self, h5, and_self]
  have h3 : m3.mine_progress = m.mine_progress ∧ m3.nodrive = m.nodrive ∧
      m3.stall_backoff = m5.stall_backoff :=
    ⟨h4.1, h4.2.1, h4.2.2.2⟩
  have hadv : (advance3 = true) ↔ (¬ m.sensor.load_TR < -10 ∧ ¬ m.sensor.minerate < 50 ∧
      ¬ m5.stall_backoff > 0) := by
    simp only [advance3, advance2, advance1, advance0, m1, robot_manager_t.set_power]
    by_cases c1 : m.sensor.load_TR < -10 <;> by_cases c2 : m.sensor.minerate < 50 <;>
      by_cases c3 : m5.stall_backoff > 0 <;> simp [c1, c2, c3]
  have h2 : m2.mine_progress = (if (¬ m.sensor.load_TR < -10 ∧ ¬ m.sensor.minerate < 50 ∧
      ¬ m5.stall_backoff > 0) then m.mine_progress + 4 / 1000 * (1 / 2) else m.mine_progress) ∧
      m2.nodrive = m.nodrive ∧ m2.stall_backoff = m5.stall_backoff := by
    by_cases ha : advance3 = true
    · have hc := hadv.mp ha
      simp only [m2, ha, if_true, h3, hc, not_false_eq_true, and_self, aggro]
    · have hc := mt hadv.mpr ha
      simp only [m2, ha, if_false, h3, hc, Bool.false_eq_true, and_self]
  have hfin : (if r.2 = true then
        if m2.mine_progress ≥ 1 then enter_state m0 robot_state_t.state_mine_finish else m2
      else m3).stall_backoff = m5.stall_backoff := by
    simp only [apply_ite robot_manager_t.stall_backoff, (enter_state_keeps_aux _ _).1, m0, m1',
      robot_manager_t.set_power, h2, h3, ite_self]
  refine ⟨plan, r.2, ⟨_, _, _, rfl⟩, ?_, ?_, ?_⟩
  · have hr : r.2 = ((move_single_joint plan.2.boom m4.robot.joint.boom (-1) 1).2 &&
        (move_single_joint plan.2.stick m4.robot.joint.stick 1 1).2 &&
        (move_single_joint plan.2.tilt m4.robot.joint.tilt 1 1).2) := rfl
    rw [hr, h4.2.2.1]
    simp [move_single_joint, and_assoc]
  · simp only [apply_ite robot_manager_t.nodrive, (enter_state_keeps_aux _ _).2.2.1, m0, m1',
      robot_manager_t.set_power, h2, h3, ite_self]
  · rw [hfin]
    simp only [apply_ite robot_manager_t.mine_progress, (enter_state_keeps_aux _ _).2.1, m0, m1',
      robot_manager_t.set_power, h2, h3]

theorem mine_branch_backoff_range_aux (X : backend_externals F) (m : robot_manager_t F)
    (h0 : 0 ≤ m.stall_backoff) (h1 : m.stall_backoff ≤ 3 / 10) :
    0 ≤ (autonomous_state_mine X m).stall_backoff ∧
      (autonomous_state_mine X m).stall_backoff ≤ 3 / 10 := by
  simp only [autonomous_state_mine,
    apply_ite robot_manager_t.stall_backoff, (enter_state_keeps_aux _ _).1,
    (move_arm_keeps_aux _ _ _).1, robot_manager_t.set_power, ite_self]
  have hmin1 : min (1 / 10) m.stall_backoff ≤ 1 / 10 := min_le_left _ _
  have hmin0 : 0 ≤ min (1 / 10) m.stall_backoff := le_min (by norm_num) h0
  split_ifs <;> constructor <;> linarith

theorem mine_tick_fields_aux (M : cmath F) (X : backend_externals F)
    (m : robot_manager_t F) (hstate : m.robot.state = robot_state_t.state_mine) :
    (autonomous_state M X m).stall_backoff
      = (autonomous_state_mine X (m.set_power m.robot.power.stop)).stall_backoff ∧
    (autonomous_state M X m).mine_progress
      = (autonomous_state_mine X (m.set_power m.robot.power.stop)).mine_progress ∧
    (autonomous_state M X m).robot.state
      = (autonomous_state_mine X (m.set_power m.robot.power.stop)).robot.state ∧
    (autonomous_state M X m).robot.power.grinder_tool
      = (autonomous_state_mine X (m.set_power m.robot.power.stop)).robot.power.grinder_tool := by
  rw [autonomous_state_mine_aux M X m hstate]
  simp only []
  obtain ⟨g1, g2, g3, g4⟩ := set_drive_powers_keeps_aux
    (autonomous_state_mine X (m.set_power m.robot.power.stop)) 0 0
  split_ifs
  · exact ⟨g2, g3, g1, g4⟩
  · exact ⟨rfl, rfl, rfl, rfl⟩

/-- C23, amended: in state `mine`, on a tick with `advance` set and `backoff`
clear (mining rate at least 50, tool load at least -10), the new
`stall_backoff` is `max(0, 0.96 * min(0.1, old) - 0.005 * 0.5)`: the old value
is first capped at 0.1 and the aggressiveness is the constant 0.5.  If the new
value is above 0, `advance` is suppressed: `mine_progress` (below 1) is left
as it is. -/
theorem mine_advance_decays_backoff (M : cmath F) (X : backend_externals F)
    (m : robot_manager_t F) (hstate : m.robot.state = robot_state_t.state_mine)
    (hrate : 50 ≤ m.sensor.minerate) (hload : -10 ≤ m.sensor.load_TR) :
    (autonomous_state M X m).stall_backoff
      = max 0 (96 / 100 * min (1 / 10) m.stall_backoff - 5 / 1000 * (1 / 2)) ∧
    (0 < (autonomous_state M X m).stall_backoff → m.mine_progress < 1 →
      (autonomous_state M X m).mine_progress = m.mine_progress) := by
  obtain ⟨f1, f2, _, _⟩ := mine_tick_fields_aux M X m hstate
  have hsb := mine_advance_backoff_aux X (m.set_power m.robot.power.stop)
    (not_lt.mpr hrate) (not_lt.mpr hload)
  rw [f1, f2]
  constructor
  · rw [hsb]
    have e : (m.set_power m.robot.power.stop).stall_backoff = m.stall_backoff := rfl
    rw [e, mul_comm (96 / 100 : F)]
  · intro hpos hprog
    obtain ⟨plan, arrived, _, _, _, hmp⟩ :=
      mine_branch_summary_aux X (m.set_power m.robot.power.stop)
    rw [hmp]
    have e : (m.set_power m.robot.power.stop).mine_progress = m.mine_progress := rfl
    have hno : ¬ (¬ (m.set_power m.robot.power.stop).sensor.load_TR < -10 ∧
        ¬ (m.set_power m.robot.power.stop).sensor.minerate < 50 ∧
        ¬ (autonomous_state_mine X (m.set_power m.robot.power.stop)).stall_backoff > 0) :=
      fun h => h.2.2 hpos
    rw [if_neg hno, e, if_neg (not_le.mpr hprog), ite_self]

end advance_theorems

section range_theorems

variable {F : Type} [LinearOrderedField F]

theorem enter_state_range_aux (m : robot_manager_t F) (st : robot_state_t) :
    (enter_state m st).stall_backoff = m.stall_backoff ∧
    (enter_state m st).mine_progress = m.mine_progress := by
  unfold enter_state
  split_ifs <;> exact ⟨rfl, rfl⟩

theorem drive_dumb_keeps_aux (M : cmath F) (X : backend_externals F)
    (m : robot_manager_t F) (t : vec2 F) (sp : F) :
    (autonomous_drive_dumb M X m t sp).1.stall_backoff = m.stall_backoff ∧
    (autonomous_drive_dumb M X m t sp).1.mine_progress = m.mine_progress := by
  unfold autonomous_drive_dumb
  split_ifs <;> exact ⟨rfl, rfl⟩

theorem battery_check_keeps_aux (m : robot_manager_t F) (t : F) :
    (drive_battery_check m t).stall_backoff = m.stall_backoff ∧
    (drive_battery_check m t).mine_progress = m.mine_progress := by
  unfold drive_battery_check autonomous_fail
  split_ifs
  · exact enter_state_range_aux _ _
  · exact ⟨rfl, rfl⟩

theorem haul_drive_done_keeps_aux (M : cmath F) (X : backend_externals F)
    (m : robot_manager_t F) :
    (haul_drive_done M X m).1.stall_backoff = m.stall_backoff ∧
    (haul_drive_done M X m).1.mine_progress = m.mine_progress := by
  unfold haul_drive_done
  lift_lets
  intro hd ys yd xt tout tback m1 pr0 pr1 pr2 pr3 m2 m3
  have h1 := battery_check_keeps_aux m 0
  have h2 : m2.stall_backoff = m.stall_backoff ∧ m2.mine_progress = m.mine_progress := by
    simp only [m2]
    split_ifs
    · exact h1
    · exact h1
  have h3 : m3.stall_backoff = m.stall_backoff ∧ m3.mine_progress = m.mine_progress := by
    simp only [m3]
    split_ifs
    · exact ⟨(drive_dumb_keeps_aux M X m2 tout 1).1.trans h2.1,
        (drive_dumb_keeps_aux M X m2 tout 1).2.trans h2.2⟩
    · exact ⟨(drive_dumb_keeps_aux M X m2 tback 1).1.trans h2.1,
        (drive_dumb_keeps_aux M X m2 tback 1).2.trans h2.2⟩
  split_ifs
  · exact h1
  · exact h3

theorem weigh_keeps_aux (m : robot_manager_t F) (t : F) :
    (autonomous_state_weigh m t).stall_backoff = m.stall_backoff ∧
    (autonomous_state_weigh m t).mine_progress = m.mine_progress := by
  unfold autonomous_state_weigh
  split <;>
    simp only [apply_ite robot_manager_t.stall_backoff, apply_ite robot_manager_t.mine_progress,
      (enter_state_range_aux _ _).1, (enter_state_range_aux _ _).2, move_scoop,
      robot_manager_t.set_power, ite_self, and_self]

theorem set_drive_powers_range_aux (m : robot_manager_t F) (a b : F) :
    (set_drive_powers m a b).stall_backoff = m.stall_backoff ∧
    (set_drive_powers m a b).mine_progress = m.mine_progress :=
  ⟨rfl, rfl⟩

/-- Outside the states `mine` and `mine_start`, a call of `autonomous_state`
leaves `stall_backoff` and `mine_progress` as they are. -/
theorem autonomous_state_other_keeps_aux (M : cmath F) (X : backend_externals F)
    (m : robot_manager_t F) (h1 : m.robot.state ≠ robot_state_t.state_mine)
    (h2 : m.robot.state ≠ robot_state_t.state_mine_start) :
    (autonomous_state M X m).stall_backoff = m.stall_backoff ∧
    (autonomous_state M X m).mine_progress = m.mine_progress := by
  cases hs : m.robot.state
  all_goals first
    | exact absurd hs h1
    | exact absurd hs h2
    | simp only [autonomous_state, robot_manager_t.set_power, hs,
        apply_ite robot_manager_t.stall_backoff, apply_ite robot_manager_t.mine_progress,
        (set_drive_powers_range_aux _ _ _).1, (set_drive_powers_range_aux _ _ _).2,
        (enter_state_range_aux _ _).1, (enter_state_range_aux _ _).2,
        (weigh_keeps_aux _ _).1, (weigh_keeps_aux _ _).2,
        (haul_drive_done_keeps_aux _ _ _).1, (haul_drive_done_keeps_aux _ _ _).2,
        move_scoop, move_arm, ite_self, and_self]

theorem mine_start_resets_aux (M : cmath F) (X : backend_externals F)
    (m : robot_manager_t F) (hs : m.robot.state = robot_state_t.state_mine_start) :
    (autonomous_state M X m).stall_backoff = 0 ∧ (autonomous_state M X m).mine_progress = 0 := by
  simp only [autonomous_state, robot_manager_t.set_power, hs,
    apply_ite robot_manager_t.stall_backoff, apply_ite robot_manager_t.mine_progress,
    (set_drive_powers_range_aux _ _ _).1, (set_drive_powers_range_aux _ _ _).2,
    (enter_state_range_aux _ _).1, (enter_state_range_aux _ _).2,
    move_arm, ite_self, and_self]

theorem mine_branch_progress_range_aux (X : backend_externals F) (m : robot_manager_t F)
    (h0 : 0 ≤ m.mine_progress) (h1 : m.mine_progress < 1) :
    0 ≤ (autonomous_state_mine X m).mine_progress ∧
      (autonomous_state_mine X m).mine_progress < 1 := by
  obtain ⟨plan, arrived, _, _, _, hmp⟩ := mine_branch_summary_aux X m
  rw [hmp]
  split_ifs <;> constructor <;> linarith

/-- One call of `autonomous_state` keeps `stall_backoff` within [0, 0.3] and
`mine_progress` within [0, 1). -/
theorem autonomous_state_ranges_aux (M : cmath F) (X : backend_externals F)
    (m : robot_manager_t F)
    (h : 0 ≤ m.stall_backoff ∧ m.stall_backoff ≤ 3 / 10 ∧
      0 ≤ m.mine_progress ∧ m.mine_progress < 1) :
    0 ≤ (autonomous_state M X m).stall_backoff ∧
      (autonomous_state M X m).stall_backoff ≤ 3 / 10 ∧
      0 ≤ (autonomous_state M X m).mine_progress ∧
      (autonomous_state M X m).mine_progress < 1 := by
  by_cases hmine : m.robot.state = robot_state_t.state_mine
  · obtain ⟨f1, f2, _, _⟩ := mine_tick_fields_aux M X m hmine
    rw [f1, f2]
    obtain ⟨a, b⟩ := mine_branch_backoff_range_aux X (m.set_power m.robot.power.stop)
      h.1 h.2.1
    obtain ⟨c, d⟩ := mine_branch_progress_range_aux X (m.set_power m.robot.power.stop)
      h.2.2.1 h.2.2.2
    exact ⟨a, b, c, d⟩
  · by_cases hstart : m.robot.state = robot_state_t.state_mine_start
    · obtain ⟨a, b⟩ := mine_start_resets_aux M X m hstart
      rw [a, b]
      norm_num
    · obtain ⟨a, b⟩ := autonomous_state_other_keeps_aux M X m hmine hstart
      rw [a, b]
      exact h

theorem update_dispatch_ranges_aux (M : cmath F) (X : backend_externals F)
    (m : robot_manager_t F) (p : robot_power F)
    (h : 0 ≤ m.stall_backoff ∧ m.stall_backoff ≤ 3 / 10 ∧
      0 ≤ m.mine_progress ∧ m.mine_progress < 1) :
    0 ≤ (update_dispatch M X m p).stall_backoff ∧
      (update_dispatch M X m p).stall_backoff ≤ 3 / 10 ∧
      0 ≤ (update_dispatch M X m p).mine_progress ∧
      (update_dispatch M X m p).mine_progress < 1 := by
  unfold update_dispatch
  split_ifs
  · exact h
  · exact h
  · exact h
  · exact autonomous_state_ranges_aux M X m h
  · exact h

/-- C28: every call of `autonomous_state`, in any state, preserves
`0 <= stall_backoff <= 0.3` and `0 <= mine_progress < 1`; so from the initial
values `mine_progress = 0`, `stall_backoff = 0` the two ranges hold after any
run of backend ticks. -/
theorem mining_ranges_invariant (M : cmath F) (X : backend_externals F)
    (m : robot_manager_t F) :
    ((0 ≤ m.stall_backoff ∧ m.stall_backoff ≤ 3 / 10 ∧
        0 ≤ m.mine_progress ∧ m.mine_progress < 1) →
      (0 ≤ (autonomous_state M X m).stall_backoff ∧
        (autonomous_state M X m).stall_backoff ≤ 3 / 10 ∧
        0 ≤ (autonomous_state M X m).mine_progress ∧
        (autonomous_state M X m).mine_progress < 1)) ∧
    (m.stall_backoff = 0 → m.mine_progress = 0 →
      ∀ inputs : List (tick_input F),
        0 ≤ (backend_ticks M X m inputs).stall_backoff ∧
        (backend_ticks M X m inputs).stall_backoff ≤ 3 / 10 ∧
        0 ≤ (backend_ticks M X m inputs).mine_progress ∧
        (backend_ticks M X m inputs).mine_progress < 1) := by
  refine ⟨autonomous_state_ranges_aux M X m, ?_⟩
  intro hs hp inputs
  have hinit : 0 ≤ m.stall_backoff ∧ m.stall_backoff ≤ 3 / 10 ∧
      0 ≤ m.mine_progress ∧ m.mine_progress < 1 := by
    rw [hs, hp]
    norm_num
  clear hs hp
  induction inputs generalizing m with
  | nil => exact hinit
  | cons x xs ih =>
    have hfold : backend_ticks M X m (x :: xs) = backend_ticks M X (backend_tick M X m x) xs :=
      rfl
    rw [hfold]
    exact ih (backend_tick M X m x)
      (update_dispatch_ranges_aux M X
        { m with cur_time := x.cur_time, sensor := x.sensor,
                 robot := { m.robot with joint := x.joint } }
        x.ui_power hinit)

end range_theorems

/-- C23 fails as stated: with `stall_backoff` at 0.2 and the mining head
cutting freely, the tick leaves `stall_backoff` at 0.0935 (the old value is
capped at 0.1 first), not at `0.96 * 0.2 - 0.005 * 0.5 = 0.1895`. -/
theorem backoff_decay_caps_first :
    backed_off_manager.robot.state = robot_state_t.state_mine ∧
    (autonomous_state cmath_rat externals_reachable backed_off_manager).stall_backoff
      = 935 / 10000 ∧
    max 0 (96 / 100 * backed_off_manager.stall_backoff
      - 5 / 1000 * backed_off_manager.tuneable.aggro) = (1895 / 10000 : ℚ) ∧
    (935 / 10000 : ℚ) ≠ 1895 / 10000 := by
  refine ⟨rfl, ?_, ?_, by norm_num⟩
  · rw [(mine_tick_fields_aux cmath_rat externals_reachable backed_off_manager rfl).1,
      mine_advance_backoff_aux externals_reachable _
        (by norm_num [backed_off_manager, cutting_sensor, robot_manager_t.set_power])
        (by norm_num [backed_off_manager, cutting_sensor, robot_manager_t.set_power])]
    norm_num [backed_off_manager, robot_manager_t.set_power]
  · norm_num [backed_off_manager, mining_manager]

/-- The amended C23 on the backed-off mining backend: the tick leaves
`stall_backoff` at `max(0, 0.96 * min(0.1, 0.2) - 0.0025)`. -/
theorem mine_advance_decays_backoff_witness :
    (autonomous_state cmath_rat externals_reachable backed_off_manager).stall_backoff
      = max 0 (96 / 100 * min (1 / 10) backed_off_manager.stall_backoff - 5 / 1000 * (1 / 2)) :=
  (mine_advance_decays_backoff cmath_rat externals_reachable backed_off_manager rfl
    (by norm_num [backed_off_manager, cutting_sensor])
    (by norm_num [backed_off_manager, cutting_sensor])).1

end Aurora
